import Mathlib

/-!
Verification of the `vu128` variable-length integer codec (`src/vu128/vu128.rs`).

The Rust code is shallowly embedded: a `[u8; N]` buffer becomes a function
`Nat → Nat` whose cells are bytes (every store truncates to `% 256`, matching
the `u8` cell type), machine integers become `Nat` with explicit `% 2 ^ w`
where the source can overflow, signed integers become `Int` with explicit
two's-complement conversions, and IEEE-754 floats are represented by their
bit patterns (the Rust code only ever manipulates `f32::to_bits` /
`f64::to_bits` images, which transmute bit-exactly).
-/

namespace Vu128

/-- A byte buffer, modelling a Rust `[u8; N]` array.  Indices at or beyond the
array length are never touched by the model of any in-bounds Rust operation. -/
abbrev Buf := Nat → Nat

/-- Models the Rust store `buf[i] = v as u8`: the stored value is truncated to
a byte, matching the `u8` cell type. -/
def setB (buf : Buf) (i v : Nat) : Buf :=
  fun j => if j = i then v % 256 else buf j

/-- Models the unaligned little-endian store of the low `count` bytes of `v`
at byte offset `start` (the `write_unaligned(x.to_le())` pointer write). -/
def writeLE : Nat → Buf → Nat → Nat → Buf
  | 0, buf, _, _ => buf
  | count + 1, buf, start, v => writeLE count (setB buf start v) (start + 1) (v >>> 8)

/-- Models the unaligned little-endian load of `count` bytes starting at byte
offset `start` (the `uNN::from_le(ptr.read_unaligned())` pointer read). -/
def readLE : Nat → Buf → Nat → Nat
  | 0, _, _ => 0
  | count + 1, buf, start => buf start + 256 * readLE count buf (start + 1)

/-- Fuel-based bit length: `bitLenAux fuel x` is the number of binary digits
of `x` whenever `x < 2 ^ fuel`.  Used to model the `leading_zeros` intrinsic. -/
def bitLenAux : Nat → Nat → Nat
  | _, 0 => 0
  | 0, _ + 1 => 0
  | fuel + 1, x + 1 => bitLenAux fuel ((x + 1) / 2) + 1

/-- Number of binary digits of `x`, for `x < 2 ^ 128` (every machine integer
in this library). -/
def bitLen (x : Nat) : Nat := bitLenAux 128 x

/-- Models the Rust intrinsic `uW::leading_zeros(x)` for width `w`. -/
def leadingZeros (w x : Nat) : Nat := w - bitLen x

/-- Embedding of `encoded_len`: the encoded length read off a prefix byte. -/
def encoded_len (b : Nat) : Nat :=
  if b < 0b10000000 then 1
  else if b < 0b11000000 then 2
  else if b < 0b11100000 then 3
  else if b < 0b11110000 then 4
  else (b &&& 0x0F) + 2

/-- Embedding of `encode_u32` (buffer `[u8; 5]`, `value : u32`). -/
def encode_u32 (buf : Buf) (value : Nat) : Buf × Nat :=
  if value < 0x80 then
    (setB buf 0 value, 1)
  else if value < 0x10000000 then
    if value < 0x00004000 then
      let x := (value <<< 2) % 2 ^ 32
      (setB (setB buf 0 (0x80 ||| ((x % 256) >>> 2))) 1 (x >>> 8), 2)
    else if value < 0x00200000 then
      let x := (value <<< 3) % 2 ^ 32
      (setB (setB (setB buf 0 (0xC0 ||| ((x % 256) >>> 3))) 1 (x >>> 8)) 2 (x >>> 16), 3)
    else
      let x := (value <<< 4) % 2 ^ 32
      (setB (setB (setB (setB buf 0 (0xE0 ||| ((x % 256) >>> 4))) 1 (x >>> 8)) 2
        (x >>> 16)) 3 (x >>> 24), 4)
  else
    (setB (writeLE 4 buf 1 value) 0 0xF3, 5)

/-- Embedding of `encode_u64` (buffer `[u8; 9]`, `value : u64`). -/
def encode_u64 (buf : Buf) (value : Nat) : Buf × Nat :=
  if value < 0x80 then
    (setB buf 0 value, 1)
  else if value < 0x10000000 then
    if value < 0x00004000 then
      let x := (value <<< 2) % 2 ^ 64
      (setB (setB buf 0 (0x80 ||| ((x % 256) >>> 2))) 1 (x >>> 8), 2)
    else if value < 0x00200000 then
      let x := (value <<< 3) % 2 ^ 64
      (setB (setB (setB buf 0 (0xC0 ||| ((x % 256) >>> 3))) 1 (x >>> 8)) 2 (x >>> 16), 3)
    else
      let x := (value <<< 4) % 2 ^ 64
      (setB (setB (setB (setB buf 0 (0xE0 ||| ((x % 256) >>> 4))) 1 (x >>> 8)) 2
        (x >>> 16)) 3 (x >>> 24), 4)
  else
    let b := writeLE 8 buf 1 value
    let len := (leadingZeros 64 value >>> 3) ^^^ 0b111
    (setB b 0 (0xF0 ||| len), len + 2)

/-- Embedding of `encode_u128` (buffer `[u8; 17]`, `value : u128`).  For
values below `2 ^ 28` the source delegates to `encode_u32` on the same
buffer storage, reinterpreted as `[u8; 5]`. -/
def encode_u128 (buf : Buf) (value : Nat) : Buf × Nat :=
  if value < 0x80 then
    (setB buf 0 value, 1)
  else if value < 0x10000000 then
    encode_u32 buf value
  else
    let b := writeLE 16 buf 1 value
    let len := (leadingZeros 128 value >>> 3) ^^^ 0b1111
    (setB b 0 (0xF0 ||| len), len + 2)

/-- Embedding of `decode_u32` (buffer `[u8; 5]`). -/
def decode_u32 (buf : Buf) : Nat × Nat :=
  let buf0 := buf 0
  if buf0 &&& 0x80 = 0 then
    (buf0, 1)
  else if buf0 &&& 0b01000000 = 0 then
    ((buf 1 <<< 6) ||| (buf0 &&& 0x3F), 2)
  else if 0xF0 ≤ buf0 then
    let len := (buf0 &&& 0x0F) + 2
    ((buf 4 <<< 24) ||| (buf 3 <<< 16) ||| (buf 2 <<< 8) ||| buf 1, len)
  else if buf0 &&& 0b00100000 = 0 then
    ((buf 2 <<< 13) ||| (buf 1 <<< 5) ||| (buf0 &&& 0x1F), 3)
  else
    ((buf 3 <<< 20) ||| (buf 2 <<< 12) ||| (buf 1 <<< 4) ||| (buf0 &&& 0x0F), 4)

/-- Embedding of `decode_u64` (buffer `[u8; 9]`). -/
def decode_u64 (buf : Buf) : Nat × Nat :=
  let buf0 := buf 0
  if buf0 &&& 0x80 = 0 then
    (buf0, 1)
  else if buf0 < 0xF0 then
    if buf0 &&& 0b01000000 = 0 then
      ((buf 1 <<< 6) ||| (buf0 &&& 0b00111111), 2)
    else if buf0 &&& 0b00100000 = 0 then
      ((buf 2 <<< 13) ||| (buf 1 <<< 5) ||| (buf0 &&& 0b00011111), 3)
    else
      ((buf 3 <<< 20) ||| (buf 2 <<< 12) ||| (buf 1 <<< 4) ||| (buf0 &&& 0b00001111), 4)
  else
    let value := readLE 8 buf 1
    let len := buf 0 &&& 0x0F
    let mask := (2 ^ 64 - 1) >>> (((len &&& 0b111) ^^^ 0b111) * 8)
    (value &&& mask, len + 2)

/-- Embedding of `decode_u128` (buffer `[u8; 17]`).  For a first byte below
`0xF0` the source delegates to `decode_u32` on the same buffer storage. -/
def decode_u128 (buf : Buf) : Nat × Nat :=
  if buf 0 &&& 0x80 = 0 then
    (buf 0, 1)
  else if buf 0 < 0xF0 then
    decode_u32 buf
  else
    let value := readLE 16 buf 1
    let len := buf 0 &&& 0x0F
    let mask := (2 ^ 128 - 1) >>> (((len &&& 0b1111) ^^^ 0b1111) * 8)
    (value &&& mask, len + 2)

/-- Reinterpret a signed `w`-bit value as unsigned (the Rust cast `as uW`):
the two's-complement bit pattern, i.e. the value modulo `2 ^ w`. -/
def toUnsigned (w : Nat) (v : Int) : Nat := (v % (2 : Int) ^ w).toNat

/-- Reinterpret an unsigned `w`-bit value as signed (the Rust cast `as iW`). -/
def toSigned (w : Nat) (x : Nat) : Int :=
  if x < 2 ^ (w - 1) then (x : Int) else (x : Int) - (2 : Int) ^ w

/-- Bitwise XOR at signed width `w` (Rust `^` on `iW`), via bit patterns. -/
def ixor (w : Nat) (a b : Int) : Int :=
  toSigned w (toUnsigned w a ^^^ toUnsigned w b)

/-- The zigzag transform of the `encode_iNN!` macro at width `w`:
`((value >> (w-1)) as uW) ^ ((value << 1) as uW)`.  The arithmetic right
shift of the signed value is floor division by `2 ^ (w-1)`. -/
def zigzag (w : Nat) (v : Int) : Nat :=
  toUnsigned w (Int.fdiv v ((2 : Int) ^ (w - 1))) ^^^ toUnsigned w (v * 2)

/-- The inverse zigzag transform of the `decode_iNN!` macro at width `w`:
`((zz >> 1) as iW) ^ (-((zz & 1) as iW))`. -/
def unzigzag (w : Nat) (zz : Nat) : Int :=
  ixor w (toSigned w (zz >>> 1)) (-(toSigned w (zz &&& 1)))

/-- Embedding of `encode_i32` (generated by `encode_iNN!`). -/
def encode_i32 (buf : Buf) (value : Int) : Buf × Nat := encode_u32 buf (zigzag 32 value)

/-- Embedding of `encode_i64` (generated by `encode_iNN!`). -/
def encode_i64 (buf : Buf) (value : Int) : Buf × Nat := encode_u64 buf (zigzag 64 value)

/-- Embedding of `encode_i128` (generated by `encode_iNN!`). -/
def encode_i128 (buf : Buf) (value : Int) : Buf × Nat := encode_u128 buf (zigzag 128 value)

/-- Embedding of `decode_i32` (generated by `decode_iNN!`). -/
def decode_i32 (buf : Buf) : Int × Nat :=
  let r := decode_u32 buf
  (unzigzag 32 r.1, r.2)

/-- Embedding of `decode_i64` (generated by `decode_iNN!`). -/
def decode_i64 (buf : Buf) : Int × Nat :=
  let r := decode_u64 buf
  (unzigzag 64 r.1, r.2)

/-- Embedding of `decode_i128` (generated by `decode_iNN!`). -/
def decode_i128 (buf : Buf) : Int × Nat :=
  let r := decode_u128 buf
  (unzigzag 128 r.1, r.2)

/-- Models `u32::swap_bytes`. -/
def swapBytes32 (x : Nat) : Nat :=
  (x % 256) * 2 ^ 24 + (x / 2 ^ 8 % 256) * 2 ^ 16 + (x / 2 ^ 16 % 256) * 2 ^ 8 +
    x / 2 ^ 24 % 256

/-- Models `u64::swap_bytes`. -/
def swapBytes64 (x : Nat) : Nat :=
  (x % 256) * 2 ^ 56 + (x / 2 ^ 8 % 256) * 2 ^ 48 + (x / 2 ^ 16 % 256) * 2 ^ 40 +
    (x / 2 ^ 24 % 256) * 2 ^ 32 + (x / 2 ^ 32 % 256) * 2 ^ 24 +
    (x / 2 ^ 40 % 256) * 2 ^ 16 + (x / 2 ^ 48 % 256) * 2 ^ 8 + x / 2 ^ 56 % 256

/-- Embedding of `encode_f32`; the `f32` argument is represented by its
IEEE-754 bit pattern (`f32::to_bits value`). -/
def encode_f32 (buf : Buf) (bits : Nat) : Buf × Nat := encode_u32 buf (swapBytes32 bits)

/-- Embedding of `encode_f64`; the `f64` argument is represented by its
IEEE-754 bit pattern (`f64::to_bits value`). -/
def encode_f64 (buf : Buf) (bits : Nat) : Buf × Nat := encode_u64 buf (swapBytes64 bits)

/-- Embedding of `decode_f32`; the decoded `f32` is represented by its
IEEE-754 bit pattern (bit patterns transmute losslessly, so this is exact). -/
def decode_f32 (buf : Buf) : Nat × Nat :=
  let r := decode_u32 buf
  (swapBytes32 r.1, r.2)

/-- Embedding of `decode_f64`, as a bit pattern. -/
def decode_f64 (buf : Buf) : Nat × Nat :=
  let r := decode_u64 buf
  (swapBytes64 r.1, r.2)

/-- An all-zero buffer, used for concrete test vectors. -/
def zbuf : Buf := fun _ => 0

/-- The spec's step function for the `u32` encoded length, read off the
breakpoint list `2^7, 2^14, 2^21, 2^28`. -/
def specStepLen32 (v : Nat) : Nat :=
  if v < 2 ^ 7 then 1
  else if v < 2 ^ 14 then 2
  else if v < 2 ^ 21 then 3
  else if v < 2 ^ 28 then 4
  else 5

/-- The spec's step function for the `u64` encoded length: breakpoints at
`2^7, 2^14, 2^21, 2^28` and at every whole-byte boundary `2^(8k)` after. -/
def specStepLen64 (v : Nat) : Nat :=
  if v < 2 ^ 7 then 1
  else if v < 2 ^ 14 then 2
  else if v < 2 ^ 21 then 3
  else if v < 2 ^ 28 then 4
  else if v < 2 ^ 32 then 5
  else if v < 2 ^ 40 then 6
  else if v < 2 ^ 48 then 7
  else if v < 2 ^ 56 then 8
  else 9

/-- The spec's step function for the `u128` encoded length: breakpoints at
`2^7, 2^14, 2^21, 2^28` and at every whole-byte boundary `2^(8k)` after. -/
def specStepLen128 (v : Nat) : Nat :=
  if v < 2 ^ 7 then 1
  else if v < 2 ^ 14 then 2
  else if v < 2 ^ 21 then 3
  else if v < 2 ^ 28 then 4
  else if v < 2 ^ 32 then 5
  else if v < 2 ^ 40 then 6
  else if v < 2 ^ 48 then 7
  else if v < 2 ^ 56 then 8
  else if v < 2 ^ 64 then 9
  else if v < 2 ^ 72 then 10
  else if v < 2 ^ 80 then 11
  else if v < 2 ^ 88 then 12
  else if v < 2 ^ 96 then 13
  else if v < 2 ^ 104 then 14
  else if v < 2 ^ 112 then 15
  else if v < 2 ^ 120 then 16
  else 17

/-- A 5-byte buffer holding the over-long binary-length-prefixed encoding
`[0xF0, 0x01]` of the value `1`, with a nonzero byte after the encoding. -/
def overlongBuf : Buf :=
  fun i => if i = 0 then 0xF0 else if i = 1 then 0x01 else if i = 2 then 0xFF else 0

/-- A 9-byte variant of `overlongBuf`, for `decode_u64`. -/
def overlongBuf64 : Buf :=
  fun i => if i = 0 then 0xF0 else if i = 1 then 0x01 else if i = 2 then 0xFF else 0

/-- A 5-byte buffer whose prefix byte `0xF7` announces a 9-byte encoding,
longer than the buffer itself; used as a witness input for `decode_u32`. -/
def skipBuf : Buf :=
  fun i => if i = 0 then 0xF7 else if i ≤ 4 then i else 0

/-! ### Arithmetic facts about the bit-level operations -/

theorem branch_pos {c : Prop} [Decidable c] {α : Sort*} {t e : α} (h : c) :
    (if c then t else e) = t := if_pos h

theorem branch_neg {c : Prop} [Decidable c] {α : Sort*} {t e : α} (h : ¬ c) :
    (if c then t else e) = e := if_neg h

theorem and_two_pow_eq_zero_iff (x n : Nat) : x &&& 2 ^ n = 0 ↔ x / 2 ^ n % 2 = 0 := by
  constructor
  · intro h
    have h2 := congrArg (fun y => Nat.testBit y n) h
    simp only [Nat.testBit_and, Nat.testBit_two_pow_self, Bool.and_true,
      Nat.zero_testBit] at h2
    rw [Nat.testBit_to_div_mod] at h2
    simpa using h2
  · intro h
    apply Nat.eq_of_testBit_eq
    intro i
    simp only [Nat.testBit_and, Nat.zero_testBit, Nat.testBit_two_pow]
    by_cases hi : n = i
    · subst hi
      rw [Nat.testBit_to_div_mod]
      simp [h]
    · simp [hi]

theorem and_128 (x : Nat) : x &&& 128 = 0 ↔ x / 128 % 2 = 0 := by
  have h := and_two_pow_eq_zero_iff x 7
  norm_num at h
  exact h

theorem and_64 (x : Nat) : x &&& 64 = 0 ↔ x / 64 % 2 = 0 := by
  have h := and_two_pow_eq_zero_iff x 6
  norm_num at h
  exact h

theorem and_32 (x : Nat) : x &&& 32 = 0 ↔ x / 32 % 2 = 0 := by
  have h := and_two_pow_eq_zero_iff x 5
  norm_num at h
  exact h

theorem and_63 (x : Nat) : x &&& 63 = x % 64 := by
  have h := Nat.and_pow_two_sub_one_eq_mod x 6
  norm_num at h
  exact h

theorem and_31 (x : Nat) : x &&& 31 = x % 32 := by
  have h := Nat.and_pow_two_sub_one_eq_mod x 5
  norm_num at h
  exact h

theorem and_15 (x : Nat) : x &&& 15 = x % 16 := by
  have h := Nat.and_pow_two_sub_one_eq_mod x 4
  norm_num at h
  exact h

theorem and_7 (x : Nat) : x &&& 7 = x % 8 := by
  have h := Nat.and_pow_two_sub_one_eq_mod x 3
  norm_num at h
  exact h

theorem or_mul_add (k c b : Nat) (hb : b < 2 ^ k) : c * 2 ^ k ||| b = c * 2 ^ k + b := by
  rw [Nat.mul_comm c (2 ^ k)]
  exact (Nat.mul_add_lt_is_or hb c).symm

theorem or_eq_add_of (k a b : Nat) (ha : a % 2 ^ k = 0) (hb : b < 2 ^ k) :
    a ||| b = a + b := by
  have h1 : a / 2 ^ k * 2 ^ k = a := Nat.div_mul_cancel (Nat.dvd_of_mod_eq_zero ha)
  rw [← h1]
  exact or_mul_add k (a / 2 ^ k) b hb

theorem xor_two_pow_sub_one (n : Nat) : ∀ x, x < 2 ^ n → x ^^^ (2 ^ n - 1) = 2 ^ n - 1 - x := by
  induction n with
  | zero =>
    intro x hx
    have hx0 : x = 0 := by omega
    subst hx0
    rfl
  | succ n ih =>
    intro x hx
    have hpow : 2 ^ (n + 1) = 2 * 2 ^ n := by rw [Nat.pow_succ]; ring
    have hpos : 0 < 2 ^ n := Nat.two_pow_pos n
    have hdiv : (2 ^ (n + 1) - 1) / 2 = 2 ^ n - 1 := by omega
    have hmod : (2 ^ (n + 1) - 1) % 2 = 1 := by omega
    have hx2 : x / 2 < 2 ^ n := by omega
    have hrec : (x ^^^ (2 ^ (n + 1) - 1)) / 2 = 2 ^ n - 1 - x / 2 := by
      rw [Nat.xor_div_two, hdiv, ih _ hx2]
    have hmod2 : (x ^^^ (2 ^ (n + 1) - 1)) % 2 = 1 - x % 2 := by
      rcases Nat.mod_two_eq_zero_or_one x with h | h
      · have h2 : (x ^^^ (2 ^ (n + 1) - 1)) % 2 = 1 := by
          rw [Nat.xor_mod_two_eq_one]
          omega
        omega
      · have h2 : ¬ (x ^^^ (2 ^ (n + 1) - 1)) % 2 = 1 := by
          rw [Nat.xor_mod_two_eq_one]
          omega
        omega
    omega

theorem two_pow_sub_one_shiftRight (n s : Nat) :
    (2 ^ n - 1) >>> s = 2 ^ (n - s) - 1 := by
  apply Nat.eq_of_testBit_eq
  intro i
  rw [Nat.testBit_shiftRight, Nat.testBit_two_pow_sub_one, Nat.testBit_two_pow_sub_one]
  exact decide_eq_decide.mpr (by omega)

/-! ### Facts about the buffer primitives -/

theorem setB_same (buf : Buf) (i v : Nat) : setB buf i v i = v % 256 := by
  simp [setB]

theorem setB_other (buf : Buf) (i v j : Nat) (h : j ≠ i) : setB buf i v j = buf j := by
  simp [setB, h]

theorem writeLE_out : ∀ count buf start v i, i < start → writeLE count buf start v i = buf i := by
  intro count
  induction count with
  | zero =>
    intro buf start v i _
    rfl
  | succ n ih =>
    intro buf start v i h
    simp only [writeLE]
    rw [ih _ _ _ _ (by omega), setB_other _ _ _ _ (by omega)]

theorem readLE_setB_out : ∀ count buf start i v, i < start →
    readLE count (setB buf i v) start = readLE count buf start := by
  intro count
  induction count with
  | zero =>
    intros
    rfl
  | succ n ih =>
    intro buf start i v h
    simp only [readLE]
    rw [setB_other _ _ _ _ (by omega), ih _ _ _ _ (by omega)]

theorem readLE_writeLE : ∀ count buf start v,
    readLE count (writeLE count buf start v) start = v % 256 ^ count := by
  intro count
  induction count with
  | zero =>
    intros
    simp [readLE, Nat.mod_one]
  | succ n ih =>
    intro buf start v
    simp only [writeLE, readLE]
    rw [writeLE_out _ _ _ _ _ (by omega), setB_same, ih]
    have hp : 256 ^ (n + 1) = 256 * 256 ^ n := by rw [Nat.pow_succ]; ring
    rw [hp, Nat.mod_mul, Nat.shiftRight_eq_div_pow]

theorem readLE_lt : ∀ count buf start, (∀ j, j < count → buf (start + j) < 256) →
    readLE count buf start < 256 ^ count := by
  intro count
  induction count with
  | zero =>
    intros
    simp [readLE]
  | succ n ih =>
    intro buf start h
    simp only [readLE]
    have h0 : buf start < 256 := by
      have := h 0 (by omega)
      simpa using this
    have hr : readLE n buf (start + 1) < 256 ^ n := by
      apply ih
      intro j hj
      have hh := h (j + 1) (by omega)
      have e : start + (j + 1) = start + 1 + j := by omega
      rw [e] at hh
      exact hh
    have hp : 256 ^ (n + 1) = 256 * 256 ^ n := by rw [Nat.pow_succ]; ring
    omega

theorem writeLE_in : ∀ count buf start v j, j < count →
    writeLE count buf start v (start + j) = v / 256 ^ j % 256 := by
  intro count
  induction count with
  | zero =>
    intro buf start v j h
    omega
  | succ n ih =>
    intro buf start v j h
    simp only [writeLE]
    cases j with
    | zero =>
      rw [writeLE_out _ _ _ _ _ (by omega)]
      simp only [Nat.add_zero, Nat.pow_zero, Nat.div_one]
      exact setB_same buf start v
    | succ j' =>
      have e : start + (j' + 1) = start + 1 + j' := by omega
      rw [e, ih _ _ _ _ (by omega), Nat.shiftRight_eq_div_pow,
        Nat.div_div_eq_div_mul]
      have e2 : (2 : Nat) ^ 8 * 256 ^ j' = 256 ^ (j' + 1) := by
        have h8 : (2 : Nat) ^ 8 = 256 := by norm_num
        rw [h8, Nat.pow_succ, Nat.mul_comm 256 (256 ^ j')]
      rw [e2]

/-! ### Facts about `bitLen` -/

theorem bitLenAux_spec : ∀ fuel x, 0 < x → x < 2 ^ fuel →
    2 ^ (bitLenAux fuel x - 1) ≤ x ∧ x < 2 ^ bitLenAux fuel x ∧ 0 < bitLenAux fuel x := by
  intro fuel
  induction fuel with
  | zero =>
    intro x hx hlt
    simp at hlt
    omega
  | succ n ih =>
    intro x hx hlt
    obtain ⟨m, rfl⟩ : ∃ m, x = m + 1 := ⟨x - 1, by omega⟩
    simp only [bitLenAux]
    by_cases hm : (m + 1) / 2 = 0
    · have hm0 : m = 0 := by omega
      subst hm0
      norm_num
      simp [bitLenAux]
    · have hpow : 2 ^ (n + 1) = 2 * 2 ^ n := by rw [Nat.pow_succ]; ring
      have hdivlt : (m + 1) / 2 < 2 ^ n := by omega
      obtain ⟨ih1, ih2, ih3⟩ := ih ((m + 1) / 2) (by omega) hdivlt
      refine ⟨?_, ?_, by omega⟩
      · have hb : 2 ^ bitLenAux n ((m + 1) / 2) =
            2 * 2 ^ (bitLenAux n ((m + 1) / 2) - 1) := by
          rw [← Nat.pow_succ']
          congr 1
          omega
        simp only [Nat.add_sub_cancel]
        omega
      · have hb : 2 ^ (bitLenAux n ((m + 1) / 2) + 1) =
            2 * 2 ^ bitLenAux n ((m + 1) / 2) := by
          rw [Nat.pow_succ]; ring
        omega

theorem bitLen_spec (x : Nat) (hx : 0 < x) (hlt : x < 2 ^ 128) :
    2 ^ (bitLen x - 1) ≤ x ∧ x < 2 ^ bitLen x ∧ 0 < bitLen x :=
  bitLenAux_spec 128 x hx hlt

theorem bitLen_le_iff (x k : Nat) (hlt : x < 2 ^ 128) : bitLen x ≤ k ↔ x < 2 ^ k := by
  rcases Nat.eq_zero_or_pos x with rfl | hx
  · constructor
    · intro _
      exact Nat.two_pow_pos k
    · intro _
      simp [bitLen, bitLenAux]
  · obtain ⟨h1, h2, h3⟩ := bitLen_spec x hx hlt
    constructor
    · intro h
      exact lt_of_lt_of_le h2 (Nat.pow_le_pow_right (by norm_num) h)
    · intro h
      by_contra hc
      push_neg at hc
      have hle : 2 ^ k ≤ 2 ^ (bitLen x - 1) := Nat.pow_le_pow_right (by norm_num) (by omega)
      omega

/-! ### Branch characterizations of the decoders, keyed on the first byte -/

theorem decode_u32_case1 (buf : Buf) (h : buf 0 < 0x80) :
    decode_u32 buf = (buf 0, 1) := by
  have hc1 : buf 0 &&& 0x80 = 0 := by
    rw [and_128]
    omega
  simp only [decode_u32]
  rw [if_pos hc1]

theorem decode_u32_case2 (buf : Buf) (h1 : 0x80 ≤ buf 0) (h2 : buf 0 < 0xC0) :
    decode_u32 buf = ((buf 1 <<< 6) ||| (buf 0 &&& 0x3F), 2) := by
  have hc1 : ¬ buf 0 &&& 0x80 = 0 := by
    rw [and_128]
    omega
  have hc2 : buf 0 &&& 0b01000000 = 0 := by
    rw [and_64]
    omega
  simp only [decode_u32]
  rw [if_neg hc1, if_pos hc2]

theorem decode_u32_case3 (buf : Buf) (h1 : 0xC0 ≤ buf 0) (h2 : buf 0 < 0xE0) :
    decode_u32 buf = ((buf 2 <<< 13) ||| (buf 1 <<< 5) ||| (buf 0 &&& 0x1F), 3) := by
  have hc1 : ¬ buf 0 &&& 0x80 = 0 := by
    rw [and_128]
    omega
  have hc2 : ¬ buf 0 &&& 0b01000000 = 0 := by
    rw [and_64]
    omega
  have hc3 : ¬ 0xF0 ≤ buf 0 := by omega
  have hc4 : buf 0 &&& 0b00100000 = 0 := by
    rw [and_32]
    omega
  simp only [decode_u32]
  rw [if_neg hc1, if_neg hc2, if_neg hc3, if_pos hc4]

theorem decode_u32_case4 (buf : Buf) (h1 : 0xE0 ≤ buf 0) (h2 : buf 0 < 0xF0) :
    decode_u32 buf = ((buf 3 <<< 20) ||| (buf 2 <<< 12) ||| (buf 1 <<< 4) |||
      (buf 0 &&& 0x0F), 4) := by
  have hc1 : ¬ buf 0 &&& 0x80 = 0 := by
    rw [and_128]
    omega
  have hc2 : ¬ buf 0 &&& 0b01000000 = 0 := by
    rw [and_64]
    omega
  have hc3 : ¬ 0xF0 ≤ buf 0 := by omega
  have hc4 : ¬ buf 0 &&& 0b00100000 = 0 := by
    rw [and_32]
    omega
  simp only [decode_u32]
  rw [if_neg hc1, if_neg hc2, if_neg hc3, if_neg hc4]

theorem decode_u32_caseF (buf : Buf) (h1 : 0xF0 ≤ buf 0) (h2 : buf 0 < 0x100) :
    decode_u32 buf = ((buf 4 <<< 24) ||| (buf 3 <<< 16) ||| (buf 2 <<< 8) ||| buf 1,
      (buf 0 &&& 0x0F) + 2) := by
  have hc1 : ¬ buf 0 &&& 0x80 = 0 := by
    rw [and_128]
    omega
  have hc2 : ¬ buf 0 &&& 0b01000000 = 0 := by
    rw [and_64]
    omega
  simp only [decode_u32]
  rw [if_neg hc1, if_neg hc2, if_pos h1]

theorem decode_u64_case1 (buf : Buf) (h : buf 0 < 0x80) :
    decode_u64 buf = (buf 0, 1) := by
  have hc1 : buf 0 &&& 0x80 = 0 := by
    rw [and_128]
    omega
  simp only [decode_u64]
  rw [if_pos hc1]

theorem decode_u64_case2 (buf : Buf) (h1 : 0x80 ≤ buf 0) (h2 : buf 0 < 0xC0) :
    decode_u64 buf = ((buf 1 <<< 6) ||| (buf 0 &&& 0b00111111), 2) := by
  have hc1 : ¬ buf 0 &&& 0x80 = 0 := by
    rw [and_128]
    omega
  have hc0 : buf 0 < 0xF0 := by omega
  have hc2 : buf 0 &&& 0b01000000 = 0 := by
    rw [and_64]
    omega
  simp only [decode_u64]
  rw [if_neg hc1, if_pos hc0, if_pos hc2]

theorem decode_u64_case3 (buf : Buf) (h1 : 0xC0 ≤ buf 0) (h2 : buf 0 < 0xE0) :
    decode_u64 buf = ((buf 2 <<< 13) ||| (buf 1 <<< 5) ||| (buf 0 &&& 0b00011111), 3) := by
  have hc1 : ¬ buf 0 &&& 0x80 = 0 := by
    rw [and_128]
    omega
  have hc0 : buf 0 < 0xF0 := by omega
  have hc2 : ¬ buf 0 &&& 0b01000000 = 0 := by
    rw [and_64]
    omega
  have hc3 : buf 0 &&& 0b00100000 = 0 := by
    rw [and_32]
    omega
  simp only [decode_u64]
  rw [if_neg hc1, if_pos hc0, if_neg hc2, if_pos hc3]

theorem decode_u64_case4 (buf : Buf) (h1 : 0xE0 ≤ buf 0) (h2 : buf 0 < 0xF0) :
    decode_u64 buf = ((buf 3 <<< 20) ||| (buf 2 <<< 12) ||| (buf 1 <<< 4) |||
      (buf 0 &&& 0b00001111), 4) := by
  have hc1 : ¬ buf 0 &&& 0x80 = 0 := by
    rw [and_128]
    omega
  have hc2 : ¬ buf 0 &&& 0b01000000 = 0 := by
    rw [and_64]
    omega
  have hc3 : ¬ buf 0 &&& 0b00100000 = 0 := by
    rw [and_32]
    omega
  simp only [decode_u64]
  rw [if_neg hc1, if_pos h2, if_neg hc2, if_neg hc3]

theorem decode_u64_caseF (buf : Buf) (h1 : 0xF0 ≤ buf 0) (h2 : buf 0 < 0x100) :
    decode_u64 buf = (readLE 8 buf 1 &&&
      ((2 ^ 64 - 1) >>> ((((buf 0 &&& 0x0F) &&& 0b111) ^^^ 0b111) * 8)),
      (buf 0 &&& 0x0F) + 2) := by
  have hc1 : ¬ buf 0 &&& 0x80 = 0 := by
    rw [and_128]
    omega
  have hc0 : ¬ buf 0 < 0xF0 := by omega
  simp only [decode_u64]
  rw [if_neg hc1, if_neg hc0]

theorem decode_u128_case1 (buf : Buf) (h : buf 0 < 0x80) :
    decode_u128 buf = (buf 0, 1) := by
  have hc1 : buf 0 &&& 0x80 = 0 := by
    rw [and_128]
    omega
  simp only [decode_u128]
  rw [if_pos hc1]

theorem decode_u128_caseMid (buf : Buf) (h1 : 0x80 ≤ buf 0) (h2 : buf 0 < 0xF0) :
    decode_u128 buf = decode_u32 buf := by
  have hc1 : ¬ buf 0 &&& 0x80 = 0 := by
    rw [and_128]
    omega
  simp only [decode_u128]
  rw [if_neg hc1, if_pos h2]

theorem decode_u128_caseF (buf : Buf) (h1 : 0xF0 ≤ buf 0) (h2 : buf 0 < 0x100) :
    decode_u128 buf = (readLE 16 buf 1 &&&
      ((2 ^ 128 - 1) >>> ((((buf 0 &&& 0x0F) &&& 0b1111) ^^^ 0b1111) * 8)),
      (buf 0 &&& 0x0F) + 2) := by
  have hc1 : ¬ buf 0 &&& 0x80 = 0 := by
    rw [and_128]
    omega
  have hc0 : ¬ buf 0 < 0xF0 := by omega
  simp only [decode_u128]
  rw [if_neg hc1, if_neg hc0]

/-! ### Round-trip of `encode_u32` / `decode_u32`, branch by branch -/

theorem encode_u32_ok1 (buf : Buf) (v : Nat) (hv : v < 0x80) :
    decode_u32 (encode_u32 buf v).1 = (v, (encode_u32 buf v).2) ∧
    encoded_len ((encode_u32 buf v).1 0) = (encode_u32 buf v).2 := by
  have he : encode_u32 buf v = (setB buf 0 v, 1) := by
    simp only [encode_u32]
    rw [if_pos hv]
  rw [he]
  show decode_u32 (setB buf 0 v) = (v, 1) ∧ encoded_len (setB buf 0 v 0) = 1
  have hB0 : setB buf 0 v 0 = v := by
    rw [setB_same, Nat.mod_eq_of_lt (by omega)]
  refine ⟨?_, ?_⟩
  · rw [decode_u32_case1 _ (by rw [hB0]; omega), hB0]
  · rw [hB0]
    simp only [encoded_len]
    rw [branch_pos (by omega)]

theorem encode_u32_ok2 (buf : Buf) (v : Nat) (h1 : 0x80 ≤ v) (h2 : v < 0x4000) :
    decode_u32 (encode_u32 buf v).1 = (v, (encode_u32 buf v).2) ∧
    encoded_len ((encode_u32 buf v).1 0) = (encode_u32 buf v).2 := by
  have hx : (v <<< 2) % 2 ^ 32 = 4 * v := by
    rw [Nat.shiftLeft_eq]
    omega
  have he : encode_u32 buf v =
      (setB (setB buf 0 (0x80 ||| ((4 * v % 256) >>> 2))) 1 ((4 * v) >>> 8), 2) := by
    simp only [encode_u32]
    rw [branch_neg (by omega), branch_pos (by omega), if_pos h2, hx]
  rw [he]
  show decode_u32 (setB (setB buf 0 (0x80 ||| ((4 * v % 256) >>> 2))) 1 ((4 * v) >>> 8)) =
      (v, 2) ∧
    encoded_len (setB (setB buf 0 (0x80 ||| ((4 * v % 256) >>> 2))) 1 ((4 * v) >>> 8) 0) = 2
  set B := setB (setB buf 0 (0x80 ||| ((4 * v % 256) >>> 2))) 1 ((4 * v) >>> 8) with hBdef
  have hsh : (4 * v % 256) >>> 2 = v % 64 := by
    rw [Nat.shiftRight_eq_div_pow]
    omega
  have hB0 : B 0 = 128 + v % 64 := by
    rw [hBdef, setB_other _ _ _ _ (by omega), setB_same, hsh,
      or_eq_add_of 7 _ _ (by norm_num) (by omega), Nat.mod_eq_of_lt (by omega)]
  have hB1 : B 1 = v / 64 := by
    rw [hBdef, setB_same, Nat.shiftRight_eq_div_pow]
    omega
  refine ⟨?_, ?_⟩
  · rw [decode_u32_case2 _ (by rw [hB0]; omega) (by rw [hB0]; omega), hB0, hB1]
    have hlow : (128 + v % 64) &&& 0x3F = v % 64 := by
      rw [and_63]
      omega
    rw [hlow, Nat.shiftLeft_eq, or_eq_add_of 6 _ _ (by omega) (by omega)]
    simp only [Prod.mk.injEq]
    exact ⟨by omega, by norm_num⟩
  · rw [hB0]
    simp only [encoded_len]
    rw [branch_neg (by omega), branch_pos (by omega)]

theorem encode_u32_ok3 (buf : Buf) (v : Nat) (h1 : 0x4000 ≤ v) (h2 : v < 0x200000) :
    decode_u32 (encode_u32 buf v).1 = (v, (encode_u32 buf v).2) ∧
    encoded_len ((encode_u32 buf v).1 0) = (encode_u32 buf v).2 := by
  have hx : (v <<< 3) % 2 ^ 32 = 8 * v := by
    rw [Nat.shiftLeft_eq]
    omega
  have he : encode_u32 buf v =
      (setB (setB (setB buf 0 (0xC0 ||| ((8 * v % 256) >>> 3))) 1 ((8 * v) >>> 8)) 2
        ((8 * v) >>> 16), 3) := by
    simp only [encode_u32]
    rw [branch_neg (by omega), branch_pos (by omega), branch_neg (by omega), if_pos h2, hx]
  rw [he]
  show decode_u32 (setB (setB (setB buf 0 (0xC0 ||| ((8 * v % 256) >>> 3))) 1
      ((8 * v) >>> 8)) 2 ((8 * v) >>> 16)) = (v, 3) ∧
    encoded_len (setB (setB (setB buf 0 (0xC0 ||| ((8 * v % 256) >>> 3))) 1
      ((8 * v) >>> 8)) 2 ((8 * v) >>> 16) 0) = 3
  set B := setB (setB (setB buf 0 (0xC0 ||| ((8 * v % 256) >>> 3))) 1 ((8 * v) >>> 8)) 2
    ((8 * v) >>> 16) with hBdef
  have hsh : (8 * v % 256) >>> 3 = v % 32 := by
    rw [Nat.shiftRight_eq_div_pow]
    omega
  have hB0 : B 0 = 192 + v % 32 := by
    rw [hBdef, setB_other _ _ _ _ (by omega), setB_other _ _ _ _ (by omega), setB_same, hsh,
      or_eq_add_of 5 _ _ (by norm_num) (by omega), Nat.mod_eq_of_lt (by omega)]
  have hB1 : B 1 = v / 32 % 256 := by
    rw [hBdef, setB_other _ _ _ _ (by omega), setB_same, Nat.shiftRight_eq_div_pow]
    omega
  have hB2 : B 2 = v / 8192 := by
    rw [hBdef, setB_same, Nat.shiftRight_eq_div_pow]
    omega
  refine ⟨?_, ?_⟩
  · rw [decode_u32_case3 _ (by rw [hB0]; omega) (by rw [hB0]; omega), hB0, hB1, hB2]
    have hlow : (192 + v % 32) &&& 0x1F = v % 32 := by
      rw [and_31]
      omega
    rw [hlow]
    simp only [Nat.shiftLeft_eq]
    rw [or_eq_add_of 13 (v / 8192 * 2 ^ 13) (v / 32 % 256 * 2 ^ 5) (by omega) (by omega),
      or_eq_add_of 5 _ _ (by omega) (by omega)]
    simp only [Prod.mk.injEq]
    exact ⟨by omega, by norm_num⟩
  · rw [hB0]
    simp only [encoded_len]
    rw [branch_neg (by omega), branch_neg (by omega), branch_pos (by omega)]

theorem encode_u32_ok4 (buf : Buf) (v : Nat) (h1 : 0x200000 ≤ v) (h2 : v < 0x10000000) :
    decode_u32 (encode_u32 buf v).1 = (v, (encode_u32 buf v).2) ∧
    encoded_len ((encode_u32 buf v).1 0) = (encode_u32 buf v).2 := by
  have hx : (v <<< 4) % 2 ^ 32 = 16 * v := by
    rw [Nat.shiftLeft_eq]
    omega
  have he : encode_u32 buf v =
      (setB (setB (setB (setB buf 0 (0xE0 ||| ((16 * v % 256) >>> 4))) 1 ((16 * v) >>> 8)) 2
        ((16 * v) >>> 16)) 3 ((16 * v) >>> 24), 4) := by
    simp only [encode_u32]
    rw [branch_neg (by omega), if_pos h2, branch_neg (by omega), branch_neg (by omega), hx]
  rw [he]
  show decode_u32 (setB (setB (setB (setB buf 0 (0xE0 ||| ((16 * v % 256) >>> 4))) 1
      ((16 * v) >>> 8)) 2 ((16 * v) >>> 16)) 3 ((16 * v) >>> 24)) = (v, 4) ∧
    encoded_len (setB (setB (setB (setB buf 0 (0xE0 ||| ((16 * v % 256) >>> 4))) 1
      ((16 * v) >>> 8)) 2 ((16 * v) >>> 16)) 3 ((16 * v) >>> 24) 0) = 4
  set B := setB (setB (setB (setB buf 0 (0xE0 ||| ((16 * v % 256) >>> 4))) 1
    ((16 * v) >>> 8)) 2 ((16 * v) >>> 16)) 3 ((16 * v) >>> 24) with hBdef
  have hsh : (16 * v % 256) >>> 4 = v % 16 := by
    rw [Nat.shiftRight_eq_div_pow]
    omega
  have hB0 : B 0 = 224 + v % 16 := by
    rw [hBdef, setB_other _ _ _ _ (by omega), setB_other _ _ _ _ (by omega),
      setB_other _ _ _ _ (by omega), setB_same, hsh,
      or_eq_add_of 4 _ _ (by norm_num) (by omega), Nat.mod_eq_of_lt (by omega)]
  have hB1 : B 1 = v / 16 % 256 := by
    rw [hBdef, setB_other _ _ _ _ (by omega), setB_other _ _ _ _ (by omega), setB_same,
      Nat.shiftRight_eq_div_pow]
    omega
  have hB2 : B 2 = v / 4096 % 256 := by
    rw [hBdef, setB_other _ _ _ _ (by omega), setB_same, Nat.shiftRight_eq_div_pow]
    omega
  have hB3 : B 3 = v / 1048576 := by
    rw [hBdef, setB_same, Nat.shiftRight_eq_div_pow]
    omega
  refine ⟨?_, ?_⟩
  · rw [decode_u32_case4 _ (by rw [hB0]; omega) (by rw [hB0]; omega), hB0, hB1, hB2, hB3]
    have hlow : (224 + v % 16) &&& 0x0F = v % 16 := by
      rw [and_15]
      omega
    rw [hlow]
    simp only [Nat.shiftLeft_eq]
    rw [or_eq_add_of 20 (v / 1048576 * 2 ^ 20) (v / 4096 % 256 * 2 ^ 12) (by omega) (by omega),
      or_eq_add_of 12 (v / 1048576 * 2 ^ 20 + v / 4096 % 256 * 2 ^ 12) (v / 16 % 256 * 2 ^ 4)
        (by omega) (by omega),
      or_eq_add_of 4 _ _ (by omega) (by omega)]
    simp only [Prod.mk.injEq]
    exact ⟨by omega, by norm_num⟩
  · rw [hB0]
    simp only [encoded_len]
    rw [branch_neg (by omega), branch_neg (by omega), branch_neg (by omega), branch_pos (by omega)]

theorem encode_u32_ok5 (buf : Buf) (v : Nat) (h1 : 0x10000000 ≤ v) (h2 : v < 2 ^ 32) :
    decode_u32 (encode_u32 buf v).1 = (v, (encode_u32 buf v).2) ∧
    encoded_len ((encode_u32 buf v).1 0) = (encode_u32 buf v).2 := by
  have he : encode_u32 buf v = (setB (writeLE 4 buf 1 v) 0 0xF3, 5) := by
    simp only [encode_u32]
    rw [branch_neg (by omega), branch_neg (by omega)]
  rw [he]
  show decode_u32 (setB (writeLE 4 buf 1 v) 0 0xF3) = (v, 5) ∧
    encoded_len (setB (writeLE 4 buf 1 v) 0 0xF3 0) = 5
  set B := setB (writeLE 4 buf 1 v) 0 0xF3 with hBdef
  have hB0 : B 0 = 0xF3 := by
    rw [hBdef, setB_same]
  have hcell : ∀ j, j < 4 → B (1 + j) = v / 256 ^ j % 256 := by
    intro j hj
    rw [hBdef, setB_other _ _ _ _ (by omega), writeLE_in _ _ _ _ _ hj]
  have hB1 : B 1 = v % 256 := by
    have h := hcell 0 (by omega)
    norm_num at h
    exact h
  have hB2 : B 2 = v / 256 % 256 := by
    have h := hcell 1 (by omega)
    norm_num at h
    exact h
  have hB3 : B 3 = v / 65536 % 256 := by
    have h := hcell 2 (by omega)
    norm_num at h
    exact h
  have hB4 : B 4 = v / 16777216 % 256 := by
    have h := hcell 3 (by omega)
    norm_num at h
    exact h
  refine ⟨?_, ?_⟩
  · rw [decode_u32_caseF _ (by rw [hB0]; omega) (by rw [hB0]; omega), hB0, hB1, hB2, hB3, hB4]
    have hlen : (0xF3 : Nat) &&& 0x0F = 3 := by
      rw [and_15]
    simp only [Nat.shiftLeft_eq]
    rw [hlen, or_eq_add_of 24 (v / 16777216 % 256 * 2 ^ 24) (v / 65536 % 256 * 2 ^ 16)
        (by omega) (by omega),
      or_eq_add_of 16 (v / 16777216 % 256 * 2 ^ 24 + v / 65536 % 256 * 2 ^ 16)
        (v / 256 % 256 * 2 ^ 8) (by omega) (by omega),
      or_eq_add_of 8 _ _ (by omega) (by omega)]
    simp only [Prod.mk.injEq]
    exact ⟨by omega, by norm_num⟩
  · rw [hB0]
    simp only [encoded_len]
    rw [branch_neg (by omega), branch_neg (by omega), branch_neg (by omega), branch_neg (by omega), and_15]

theorem encode_u32_ok (buf : Buf) (v : Nat) (hv : v < 2 ^ 32) :
    decode_u32 (encode_u32 buf v).1 = (v, (encode_u32 buf v).2) ∧
    encoded_len ((encode_u32 buf v).1 0) = (encode_u32 buf v).2 := by
  rcases lt_or_ge v 0x80 with h1 | h1
  · exact encode_u32_ok1 buf v h1
  rcases lt_or_ge v 0x4000 with h2 | h2
  · exact encode_u32_ok2 buf v h1 h2
  rcases lt_or_ge v 0x200000 with h3 | h3
  · exact encode_u32_ok3 buf v h2 h3
  rcases lt_or_ge v 0x10000000 with h4 | h4
  · exact encode_u32_ok4 buf v h3 h4
  exact encode_u32_ok5 buf v h4 hv

/-! ### Round-trip of `encode_u64` / `decode_u64`, branch by branch -/

theorem encode_u64_ok1 (buf : Buf) (v : Nat) (hv : v < 0x80) :
    decode_u64 (encode_u64 buf v).1 = (v, (encode_u64 buf v).2) ∧
    encoded_len ((encode_u64 buf v).1 0) = (encode_u64 buf v).2 := by
  have he : encode_u64 buf v = (setB buf 0 v, 1) := by
    simp only [encode_u64]
    rw [if_pos hv]
  rw [he]
  show decode_u64 (setB buf 0 v) = (v, 1) ∧ encoded_len (setB buf 0 v 0) = 1
  have hB0 : setB buf 0 v 0 = v := by
    rw [setB_same, Nat.mod_eq_of_lt (by omega)]
  refine ⟨?_, ?_⟩
  · rw [decode_u64_case1 _ (by rw [hB0]; omega), hB0]
  · rw [hB0]
    simp only [encoded_len]
    rw [branch_pos (by omega)]

theorem encode_u64_ok2 (buf : Buf) (v : Nat) (h1 : 0x80 ≤ v) (h2 : v < 0x4000) :
    decode_u64 (encode_u64 buf v).1 = (v, (encode_u64 buf v).2) ∧
    encoded_len ((encode_u64 buf v).1 0) = (encode_u64 buf v).2 := by
  have hx : (v <<< 2) % 2 ^ 64 = 4 * v := by
    rw [Nat.shiftLeft_eq]
    omega
  have he : encode_u64 buf v =
      (setB (setB buf 0 (0x80 ||| ((4 * v % 256) >>> 2))) 1 ((4 * v) >>> 8), 2) := by
    simp only [encode_u64]
    rw [branch_neg (by omega), branch_pos (by omega), if_pos h2, hx]
  rw [he]
  show decode_u64 (setB (setB buf 0 (0x80 ||| ((4 * v % 256) >>> 2))) 1 ((4 * v) >>> 8)) =
      (v, 2) ∧
    encoded_len (setB (setB buf 0 (0x80 ||| ((4 * v % 256) >>> 2))) 1 ((4 * v) >>> 8) 0) = 2
  set B := setB (setB buf 0 (0x80 ||| ((4 * v % 256) >>> 2))) 1 ((4 * v) >>> 8) with hBdef
  have hsh : (4 * v % 256) >>> 2 = v % 64 := by
    rw [Nat.shiftRight_eq_div_pow]
    omega
  have hB0 : B 0 = 128 + v % 64 := by
    rw [hBdef, setB_other _ _ _ _ (by omega), setB_same, hsh,
      or_eq_add_of 7 _ _ (by norm_num) (by omega), Nat.mod_eq_of_lt (by omega)]
  have hB1 : B 1 = v / 64 := by
    rw [hBdef, setB_same, Nat.shiftRight_eq_div_pow]
    omega
  refine ⟨?_, ?_⟩
  · rw [decode_u64_case2 _ (by rw [hB0]; omega) (by rw [hB0]; omega), hB0, hB1]
    have hlow : (128 + v % 64) &&& 0b00111111 = v % 64 := by
      rw [and_63]
      omega
    rw [hlow, Nat.shiftLeft_eq, or_eq_add_of 6 _ _ (by omega) (by omega)]
    simp only [Prod.mk.injEq]
    exact ⟨by omega, by norm_num⟩
  · rw [hB0]
    simp only [encoded_len]
    rw [branch_neg (by omega), branch_pos (by omega)]

theorem encode_u64_ok3 (buf : Buf) (v : Nat) (h1 : 0x4000 ≤ v) (h2 : v < 0x200000) :
    decode_u64 (encode_u64 buf v).1 = (v, (encode_u64 buf v).2) ∧
    encoded_len ((encode_u64 buf v).1 0) = (encode_u64 buf v).2 := by
  have hx : (v <<< 3) % 2 ^ 64 = 8 * v := by
    rw [Nat.shiftLeft_eq]
    omega
  have he : encode_u64 buf v =
      (setB (setB (setB buf 0 (0xC0 ||| ((8 * v % 256) >>> 3))) 1 ((8 * v) >>> 8)) 2
        ((8 * v) >>> 16), 3) := by
    simp only [encode_u64]
    rw [branch_neg (by omega), branch_pos (by omega), branch_neg (by omega), if_pos h2, hx]
  rw [he]
  show decode_u64 (setB (setB (setB buf 0 (0xC0 ||| ((8 * v % 256) >>> 3))) 1
      ((8 * v) >>> 8)) 2 ((8 * v) >>> 16)) = (v, 3) ∧
    encoded_len (setB (setB (setB buf 0 (0xC0 ||| ((8 * v % 256) >>> 3))) 1
      ((8 * v) >>> 8)) 2 ((8 * v) >>> 16) 0) = 3
  set B := setB (setB (setB buf 0 (0xC0 ||| ((8 * v % 256) >>> 3))) 1 ((8 * v) >>> 8)) 2
    ((8 * v) >>> 16) with hBdef
  have hsh : (8 * v % 256) >>> 3 = v % 32 := by
    rw [Nat.shiftRight_eq_div_pow]
    omega
  have hB0 : B 0 = 192 + v % 32 := by
    rw [hBdef, setB_other _ _ _ _ (by omega), setB_other _ _ _ _ (by omega), setB_same, hsh,
      or_eq_add_of 5 _ _ (by norm_num) (by omega), Nat.mod_eq_of_lt (by omega)]
  have hB1 : B 1 = v / 32 % 256 := by
    rw [hBdef, setB_other _ _ _ _ (by omega), setB_same, Nat.shiftRight_eq_div_pow]
    omega
  have hB2 : B 2 = v / 8192 := by
    rw [hBdef, setB_same, Nat.shiftRight_eq_div_pow]
    omega
  refine ⟨?_, ?_⟩
  · rw [decode_u64_case3 _ (by rw [hB0]; omega) (by rw [hB0]; omega), hB0, hB1, hB2]
    have hlow : (192 + v % 32) &&& 0b00011111 = v % 32 := by
      rw [and_31]
      omega
    rw [hlow]
    simp only [Nat.shiftLeft_eq]
    rw [or_eq_add_of 13 (v / 8192 * 2 ^ 13) (v / 32 % 256 * 2 ^ 5) (by omega) (by omega),
      or_eq_add_of 5 _ _ (by omega) (by omega)]
    simp only [Prod.mk.injEq]
    exact ⟨by omega, by norm_num⟩
  · rw [hB0]
    simp only [encoded_len]
    rw [branch_neg (by omega), branch_neg (by omega), branch_pos (by omega)]

theorem encode_u64_ok4 (buf : Buf) (v : Nat) (h1 : 0x200000 ≤ v) (h2 : v < 0x10000000) :
    decode_u64 (encode_u64 buf v).1 = (v, (encode_u64 buf v).2) ∧
    encoded_len ((encode_u64 buf v).1 0) = (encode_u64 buf v).2 := by
  have hx : (v <<< 4) % 2 ^ 64 = 16 * v := by
    rw [Nat.shiftLeft_eq]
    omega
  have he : encode_u64 buf v =
      (setB (setB (setB (setB buf 0 (0xE0 ||| ((16 * v % 256) >>> 4))) 1 ((16 * v) >>> 8)) 2
        ((16 * v) >>> 16)) 3 ((16 * v) >>> 24), 4) := by
    simp only [encode_u64]
    rw [branch_neg (by omega), if_pos h2, branch_neg (by omega), branch_neg (by omega), hx]
  rw [he]
  show decode_u64 (setB (setB (setB (setB buf 0 (0xE0 ||| ((16 * v % 256) >>> 4))) 1
      ((16 * v) >>> 8)) 2 ((16 * v) >>> 16)) 3 ((16 * v) >>> 24)) = (v, 4) ∧
    encoded_len (setB (setB (setB (setB buf 0 (0xE0 ||| ((16 * v % 256) >>> 4))) 1
      ((16 * v) >>> 8)) 2 ((16 * v) >>> 16)) 3 ((16 * v) >>> 24) 0) = 4
  set B := setB (setB (setB (setB buf 0 (0xE0 ||| ((16 * v % 256) >>> 4))) 1
    ((16 * v) >>> 8)) 2 ((16 * v) >>> 16)) 3 ((16 * v) >>> 24) with hBdef
  have hsh : (16 * v % 256) >>> 4 = v % 16 := by
    rw [Nat.shiftRight_eq_div_pow]
    omega
  have hB0 : B 0 = 224 + v % 16 := by
    rw [hBdef, setB_other _ _ _ _ (by omega), setB_other _ _ _ _ (by omega),
      setB_other _ _ _ _ (by omega), setB_same, hsh,
      or_eq_add_of 4 _ _ (by norm_num) (by omega), Nat.mod_eq_of_lt (by omega)]
  have hB1 : B 1 = v / 16 % 256 := by
    rw [hBdef, setB_other _ _ _ _ (by omega), setB_other _ _ _ _ (by omega), setB_same,
      Nat.shiftRight_eq_div_pow]
    omega
  have hB2 : B 2 = v / 4096 % 256 := by
    rw [hBdef, setB_other _ _ _ _ (by omega), setB_same, Nat.shiftRight_eq_div_pow]
    omega
  have hB3 : B 3 = v / 1048576 := by
    rw [hBdef, setB_same, Nat.shiftRight_eq_div_pow]
    omega
  refine ⟨?_, ?_⟩
  · rw [decode_u64_case4 _ (by rw [hB0]; omega) (by rw [hB0]; omega), hB0, hB1, hB2, hB3]
    have hlow : (224 + v % 16) &&& 0b00001111 = v % 16 := by
      rw [and_15]
      omega
    rw [hlow]
    simp only [Nat.shiftLeft_eq]
    rw [or_eq_add_of 20 (v / 1048576 * 2 ^ 20) (v / 4096 % 256 * 2 ^ 12) (by omega) (by omega),
      or_eq_add_of 12 (v / 1048576 * 2 ^ 20 + v / 4096 % 256 * 2 ^ 12) (v / 16 % 256 * 2 ^ 4)
        (by omega) (by omega),
      or_eq_add_of 4 _ _ (by omega) (by omega)]
    simp only [Prod.mk.injEq]
    exact ⟨by omega, by norm_num⟩
  · rw [hB0]
    simp only [encoded_len]
    rw [branch_neg (by omega), branch_neg (by omega), branch_neg (by omega), branch_pos (by omega)]

theorem encode_u64_okF (buf : Buf) (v : Nat) (h1 : 0x10000000 ≤ v) (h2 : v < 2 ^ 64) :
    decode_u64 (encode_u64 buf v).1 = (v, (encode_u64 buf v).2) ∧
    encoded_len ((encode_u64 buf v).1 0) = (encode_u64 buf v).2 := by
  have hv128 : v < 2 ^ 128 := by omega
  obtain ⟨hm1, hm2, hm3⟩ := bitLen_spec v (by omega) hv128
  have hub : bitLen v ≤ 64 := (bitLen_le_iff v 64 hv128).mpr h2
  have hlb : 29 ≤ bitLen v := by
    by_contra hc
    push_neg at hc
    have := (bitLen_le_iff v 28 hv128).mp (by omega)
    omega
  have he : encode_u64 buf v =
      (setB (writeLE 8 buf 1 v) 0 (0xF0 ||| ((leadingZeros 64 v >>> 3) ^^^ 0b111)),
        ((leadingZeros 64 v >>> 3) ^^^ 0b111) + 2) := by
    simp only [encode_u64]
    rw [branch_neg (by omega), branch_neg (by omega)]
  have hlz : leadingZeros 64 v >>> 3 = (64 - bitLen v) / 8 := by
    simp only [leadingZeros]
    rw [Nat.shiftRight_eq_div_pow]
  have hxor : (64 - bitLen v) / 8 ^^^ 0b111 = 7 - (64 - bitLen v) / 8 := by
    have h8 := xor_two_pow_sub_one 3 ((64 - bitLen v) / 8) (by omega)
    norm_num at h8
    exact h8
  have hlen7 : (leadingZeros 64 v >>> 3) ^^^ 0b111 = 7 - (64 - bitLen v) / 8 := by
    rw [hlz, hxor]
  rw [he, hlen7]
  show decode_u64 (setB (writeLE 8 buf 1 v) 0 (0xF0 ||| (7 - (64 - bitLen v) / 8))) =
      (v, 7 - (64 - bitLen v) / 8 + 2) ∧
    encoded_len (setB (writeLE 8 buf 1 v) 0 (0xF0 ||| (7 - (64 - bitLen v) / 8)) 0) =
      7 - (64 - bitLen v) / 8 + 2
  set L := 7 - (64 - bitLen v) / 8 with hLdef
  have hL3 : 3 ≤ L := by omega
  have hL7 : L ≤ 7 := by omega
  set B := setB (writeLE 8 buf 1 v) 0 (0xF0 ||| L) with hBdef
  have hB0 : B 0 = 240 + L := by
    rw [hBdef, setB_same, or_eq_add_of 4 _ _ (by norm_num) (by omega),
      Nat.mod_eq_of_lt (by omega)]
  have hread : readLE 8 B 1 = v := by
    rw [hBdef, readLE_setB_out _ _ _ _ _ (by omega), readLE_writeLE,
      Nat.mod_eq_of_lt (by omega)]
  have hlennib : B 0 &&& 0x0F = L := by
    rw [hB0, and_15]
    omega
  refine ⟨?_, ?_⟩
  · rw [decode_u64_caseF _ (by rw [hB0]; omega) (by rw [hB0]; omega), hread, hlennib]
    have hand7 : L &&& 0b111 = L := by
      rw [and_7]
      omega
    have hx7 : L ^^^ 0b111 = 7 - L := by
      have h8 := xor_two_pow_sub_one 3 L (by omega)
      norm_num at h8
      exact h8
    rw [hand7, hx7, two_pow_sub_one_shiftRight, Nat.and_pow_two_sub_one_eq_mod,
      Nat.mod_eq_of_lt]
    have hmle : bitLen v ≤ 64 - (7 - L) * 8 := by omega
    calc v < 2 ^ bitLen v := hm2
    _ ≤ 2 ^ (64 - (7 - L) * 8) := Nat.pow_le_pow_right (by norm_num) hmle
  · rw [hB0]
    simp only [encoded_len]
    rw [branch_neg (by omega), branch_neg (by omega), branch_neg (by omega), branch_neg (by omega), and_15]
    omega

theorem encode_u64_ok (buf : Buf) (v : Nat) (hv : v < 2 ^ 64) :
    decode_u64 (encode_u64 buf v).1 = (v, (encode_u64 buf v).2) ∧
    encoded_len ((encode_u64 buf v).1 0) = (encode_u64 buf v).2 := by
  rcases lt_or_ge v 0x80 with h1 | h1
  · exact encode_u64_ok1 buf v h1
  rcases lt_or_ge v 0x4000 with h2 | h2
  · exact encode_u64_ok2 buf v h1 h2
  rcases lt_or_ge v 0x200000 with h3 | h3
  · exact encode_u64_ok3 buf v h2 h3
  rcases lt_or_ge v 0x10000000 with h4 | h4
  · exact encode_u64_ok4 buf v h3 h4
  exact encode_u64_okF buf v h4 hv

/-! ### Round-trip of `encode_u128` / `decode_u128` -/

theorem encode_u32_b0 (buf : Buf) (v : Nat) (h1 : 0x80 ≤ v) (h2 : v < 0x10000000) :
    0x80 ≤ (encode_u32 buf v).1 0 ∧ (encode_u32 buf v).1 0 < 0xF0 := by
  rcases lt_or_ge v 0x4000 with hb | hb
  · have hx : (v <<< 2) % 2 ^ 32 = 4 * v := by
      rw [Nat.shiftLeft_eq]
      omega
    have he : encode_u32 buf v =
        (setB (setB buf 0 (0x80 ||| ((4 * v % 256) >>> 2))) 1 ((4 * v) >>> 8), 2) := by
      simp only [encode_u32]
      rw [branch_neg (by omega), branch_pos (by omega), if_pos hb, hx]
    rw [he]
    show 0x80 ≤ setB (setB buf 0 (0x80 ||| ((4 * v % 256) >>> 2))) 1 ((4 * v) >>> 8) 0 ∧
      setB (setB buf 0 (0x80 ||| ((4 * v % 256) >>> 2))) 1 ((4 * v) >>> 8) 0 < 0xF0
    have hsh : (4 * v % 256) >>> 2 = v % 64 := by
      rw [Nat.shiftRight_eq_div_pow]
      omega
    rw [setB_other _ _ _ _ (by omega), setB_same, hsh,
      or_eq_add_of 7 _ _ (by norm_num) (by omega), Nat.mod_eq_of_lt (by omega)]
    omega
  rcases lt_or_ge v 0x200000 with hc | hc
  · have hx : (v <<< 3) % 2 ^ 32 = 8 * v := by
      rw [Nat.shiftLeft_eq]
      omega
    have he : encode_u32 buf v =
        (setB (setB (setB buf 0 (0xC0 ||| ((8 * v % 256) >>> 3))) 1 ((8 * v) >>> 8)) 2
          ((8 * v) >>> 16), 3) := by
      simp only [encode_u32]
      rw [branch_neg (by omega), branch_pos (by omega), branch_neg (by omega), if_pos hc, hx]
    rw [he]
    show 0x80 ≤ setB (setB (setB buf 0 (0xC0 ||| ((8 * v % 256) >>> 3))) 1 ((8 * v) >>> 8)) 2
        ((8 * v) >>> 16) 0 ∧
      setB (setB (setB buf 0 (0xC0 ||| ((8 * v % 256) >>> 3))) 1 ((8 * v) >>> 8)) 2
        ((8 * v) >>> 16) 0 < 0xF0
    have hsh : (8 * v % 256) >>> 3 = v % 32 := by
      rw [Nat.shiftRight_eq_div_pow]
      omega
    rw [setB_other _ _ _ _ (by omega), setB_other _ _ _ _ (by omega), setB_same, hsh,
      or_eq_add_of 5 _ _ (by norm_num) (by omega), Nat.mod_eq_of_lt (by omega)]
    omega
  · have hx : (v <<< 4) % 2 ^ 32 = 16 * v := by
      rw [Nat.shiftLeft_eq]
      omega
    have he : encode_u32 buf v =
        (setB (setB (setB (setB buf 0 (0xE0 ||| ((16 * v % 256) >>> 4))) 1 ((16 * v) >>> 8)) 2
          ((16 * v) >>> 16)) 3 ((16 * v) >>> 24), 4) := by
      simp only [encode_u32]
      rw [branch_neg (by omega), if_pos h2, branch_neg (by omega), branch_neg (by omega), hx]
    rw [he]
    show 0x80 ≤ setB (setB (setB (setB buf 0 (0xE0 ||| ((16 * v % 256) >>> 4))) 1
        ((16 * v) >>> 8)) 2 ((16 * v) >>> 16)) 3 ((16 * v) >>> 24) 0 ∧
      setB (setB (setB (setB buf 0 (0xE0 ||| ((16 * v % 256) >>> 4))) 1
        ((16 * v) >>> 8)) 2 ((16 * v) >>> 16)) 3 ((16 * v) >>> 24) 0 < 0xF0
    have hsh : (16 * v % 256) >>> 4 = v % 16 := by
      rw [Nat.shiftRight_eq_div_pow]
      omega
    rw [setB_other _ _ _ _ (by omega), setB_other _ _ _ _ (by omega),
      setB_other _ _ _ _ (by omega), setB_same, hsh,
      or_eq_add_of 4 _ _ (by norm_num) (by omega), Nat.mod_eq_of_lt (by omega)]
    omega

theorem encode_u128_ok1 (buf : Buf) (v : Nat) (hv : v < 0x80) :
    decode_u128 (encode_u128 buf v).1 = (v, (encode_u128 buf v).2) ∧
    encoded_len ((encode_u128 buf v).1 0) = (encode_u128 buf v).2 := by
  have he : encode_u128 buf v = (setB buf 0 v, 1) := by
    simp only [encode_u128]
    rw [if_pos hv]
  rw [he]
  show decode_u128 (setB buf 0 v) = (v, 1) ∧ encoded_len (setB buf 0 v 0) = 1
  have hB0 : setB buf 0 v 0 = v := by
    rw [setB_same, Nat.mod_eq_of_lt (by omega)]
  refine ⟨?_, ?_⟩
  · rw [decode_u128_case1 _ (by rw [hB0]; omega), hB0]
  · rw [hB0]
    simp only [encoded_len]
    rw [branch_pos (by omega)]

theorem encode_u128_okMid (buf : Buf) (v : Nat) (h1 : 0x80 ≤ v) (h2 : v < 0x10000000) :
    decode_u128 (encode_u128 buf v).1 = (v, (encode_u128 buf v).2) ∧
    encoded_len ((encode_u128 buf v).1 0) = (encode_u128 buf v).2 := by
  have he : encode_u128 buf v = encode_u32 buf v := by
    simp only [encode_u128]
    rw [branch_neg (by omega), if_pos h2]
  rw [he]
  obtain ⟨hb0l, hb0u⟩ := encode_u32_b0 buf v h1 h2
  rw [decode_u128_caseMid _ hb0l hb0u]
  exact encode_u32_ok buf v (by omega)

theorem encode_u128_okF (buf : Buf) (v : Nat) (h1 : 0x10000000 ≤ v) (h2 : v < 2 ^ 128) :
    decode_u128 (encode_u128 buf v).1 = (v, (encode_u128 buf v).2) ∧
    encoded_len ((encode_u128 buf v).1 0) = (encode_u128 buf v).2 := by
  obtain ⟨hm1, hm2, hm3⟩ := bitLen_spec v (by omega) h2
  have hub : bitLen v ≤ 128 := (bitLen_le_iff v 128 h2).mpr h2
  have hlb : 29 ≤ bitLen v := by
    by_contra hc
    push_neg at hc
    have := (bitLen_le_iff v 28 h2).mp (by omega)
    omega
  have he : encode_u128 buf v =
      (setB (writeLE 16 buf 1 v) 0 (0xF0 ||| ((leadingZeros 128 v >>> 3) ^^^ 0b1111)),
        ((leadingZeros 128 v >>> 3) ^^^ 0b1111) + 2) := by
    simp only [encode_u128]
    rw [branch_neg (by omega), branch_neg (by omega)]
  have hlz : leadingZeros 128 v >>> 3 = (128 - bitLen v) / 8 := by
    simp only [leadingZeros]
    rw [Nat.shiftRight_eq_div_pow]
  have hxor : (128 - bitLen v) / 8 ^^^ 0b1111 = 15 - (128 - bitLen v) / 8 := by
    have h16 := xor_two_pow_sub_one 4 ((128 - bitLen v) / 8) (by omega)
    norm_num at h16
    exact h16
  have hlen15 : (leadingZeros 128 v >>> 3) ^^^ 0b1111 = 15 - (128 - bitLen v) / 8 := by
    rw [hlz, hxor]
  rw [he, hlen15]
  show decode_u128 (setB (writeLE 16 buf 1 v) 0 (0xF0 ||| (15 - (128 - bitLen v) / 8))) =
      (v, 15 - (128 - bitLen v) / 8 + 2) ∧
    encoded_len (setB (writeLE 16 buf 1 v) 0 (0xF0 ||| (15 - (128 - bitLen v) / 8)) 0) =
      15 - (128 - bitLen v) / 8 + 2
  set L := 15 - (128 - bitLen v) / 8 with hLdef
  have hL3 : 3 ≤ L := by omega
  have hL15 : L ≤ 15 := by omega
  set B := setB (writeLE 16 buf 1 v) 0 (0xF0 ||| L) with hBdef
  have hB0 : B 0 = 240 + L := by
    rw [hBdef, setB_same, or_eq_add_of 4 _ _ (by norm_num) (by omega),
      Nat.mod_eq_of_lt (by omega)]
  have hread : readLE 16 B 1 = v := by
    rw [hBdef, readLE_setB_out _ _ _ _ _ (by omega), readLE_writeLE,
      Nat.mod_eq_of_lt (by omega)]
  have hlennib : B 0 &&& 0x0F = L := by
    rw [hB0, and_15]
    omega
  refine ⟨?_, ?_⟩
  · rw [decode_u128_caseF _ (by rw [hB0]; omega) (by rw [hB0]; omega), hread, hlennib]
    have hand15 : L &&& 0b1111 = L := by
      rw [and_15]
      omega
    have hx15 : L ^^^ 0b1111 = 15 - L := by
      have h16 := xor_two_pow_sub_one 4 L (by omega)
      norm_num at h16
      exact h16
    rw [hand15, hx15, two_pow_sub_one_shiftRight, Nat.and_pow_two_sub_one_eq_mod,
      Nat.mod_eq_of_lt]
    have hmle : bitLen v ≤ 128 - (15 - L) * 8 := by omega
    calc v < 2 ^ bitLen v := hm2
    _ ≤ 2 ^ (128 - (15 - L) * 8) := Nat.pow_le_pow_right (by norm_num) hmle
  · rw [hB0]
    simp only [encoded_len]
    rw [branch_neg (by omega), branch_neg (by omega), branch_neg (by omega), branch_neg (by omega), and_15]
    omega

theorem encode_u128_ok (buf : Buf) (v : Nat) (hv : v < 2 ^ 128) :
    decode_u128 (encode_u128 buf v).1 = (v, (encode_u128 buf v).2) ∧
    encoded_len ((encode_u128 buf v).1 0) = (encode_u128 buf v).2 := by
  rcases lt_or_ge v 0x80 with h1 | h1
  · exact encode_u128_ok1 buf v h1
  rcases lt_or_ge v 0x10000000 with h2 | h2
  · exact encode_u128_okMid buf v h1 h2
  exact encode_u128_okF buf v h2 hv

/-! ### The zigzag transform -/

theorem toUnsigned_ofNat (w : Nat) (a : Nat) (h : a < 2 ^ w) :
    toUnsigned w (a : Int) = a := by
  have hcast : (((2 : Nat) ^ w : Nat) : Int) = (2 : Int) ^ w := by push_cast; ring
  simp only [toUnsigned]
  rw [Int.emod_eq_of_lt (by omega) (by omega)]
  omega

theorem toUnsigned_neg_one (w : Nat) : toUnsigned w (-1) = 2 ^ w - 1 := by
  have hcast : (((2 : Nat) ^ w : Nat) : Int) = (2 : Int) ^ w := by push_cast; ring
  have hpos : (0 : Int) < (2 : Int) ^ w := by positivity
  simp only [toUnsigned]
  have e : (-1 : Int) = ((2 : Int) ^ w - 1) + (-1) * (2 : Int) ^ w := by ring
  rw [e, Int.add_mul_emod_self, Int.emod_eq_of_lt (by omega) (by omega)]
  omega

theorem zigzag_eq (w : Nat) (v : Int) (hw : 2 ≤ w)
    (hlo : -((2 : Int) ^ (w - 1)) ≤ v) (hhi : v < (2 : Int) ^ (w - 1)) :
    zigzag w v = if 0 ≤ v then (2 * v).toNat else (-(2 * v) - 1).toNat := by
  have hw1 : w - 1 + 1 = w := by omega
  have hp : (2 : Int) ^ w = 2 * (2 : Int) ^ (w - 1) := by
    conv_lhs => rw [← hw1]
    rw [pow_succ']
  have hA : (0 : Int) < (2 : Int) ^ (w - 1) := by positivity
  have hcast : (((2 : Nat) ^ w : Nat) : Int) = (2 : Int) ^ w := by push_cast; ring
  rcases le_or_lt 0 v with hv0 | hv0
  · have hfd : Int.fdiv v ((2 : Int) ^ (w - 1)) = 0 := by
      rw [Int.fdiv_eq_ediv _ (by positivity)]
      exact Int.ediv_eq_zero_of_lt hv0 hhi
    have ht0 : toUnsigned w (Int.fdiv v ((2 : Int) ^ (w - 1))) = 0 := by
      rw [hfd]
      simp [toUnsigned]
    have ht2 : toUnsigned w (v * 2) = (v * 2).toNat := by
      simp only [toUnsigned]
      rw [Int.emod_eq_of_lt (by omega) (by omega)]
    simp only [zigzag]
    rw [ht0, ht2, Nat.zero_xor, if_pos hv0]
    omega
  · have hfd : Int.fdiv v ((2 : Int) ^ (w - 1)) = -1 := by
      rw [Int.fdiv_eq_ediv _ (by positivity)]
      have e : v = (v + (2 : Int) ^ (w - 1)) + (-1) * (2 : Int) ^ (w - 1) := by ring
      rw [e, Int.add_mul_ediv_right _ _ (by positivity : (0 : Int) < (2 : Int) ^ (w - 1)).ne',
        Int.ediv_eq_zero_of_lt (by omega) (by omega)]
      norm_num
    have ht1 : toUnsigned w (Int.fdiv v ((2 : Int) ^ (w - 1))) = 2 ^ w - 1 := by
      rw [hfd]
      exact toUnsigned_neg_one w
    have ht2 : toUnsigned w (v * 2) = (v * 2 + (2 : Int) ^ w).toNat := by
      have e : v * 2 = (v * 2 + (2 : Int) ^ w) + (-1) * (2 : Int) ^ w := by ring
      have hm : (v * 2) % ((2 : Int) ^ w) = v * 2 + (2 : Int) ^ w := by
        conv_lhs => rw [e]
        rw [Int.add_mul_emod_self, Int.emod_eq_of_lt (by omega) (by omega)]
      simp only [toUnsigned]
      rw [hm]
    simp only [zigzag]
    rw [ht1, ht2, Nat.xor_comm, xor_two_pow_sub_one w _ (by omega), branch_neg (by omega)]
    omega

theorem zigzag_lt (w : Nat) (v : Int) (hw : 2 ≤ w)
    (hlo : -((2 : Int) ^ (w - 1)) ≤ v) (hhi : v < (2 : Int) ^ (w - 1)) :
    zigzag w v < 2 ^ w := by
  have hw1 : w - 1 + 1 = w := by omega
  have hp : (2 : Int) ^ w = 2 * (2 : Int) ^ (w - 1) := by
    conv_lhs => rw [← hw1]
    rw [pow_succ']
  have hcast : (((2 : Nat) ^ w : Nat) : Int) = (2 : Int) ^ w := by push_cast; ring
  have hcastA : (((2 : Nat) ^ (w - 1) : Nat) : Int) = (2 : Int) ^ (w - 1) := by
    push_cast; ring
  rw [zigzag_eq w v hw hlo hhi]
  split_ifs <;> omega

theorem unzigzag_zigzag (w : Nat) (v : Int) (hw : 2 ≤ w)
    (hlo : -((2 : Int) ^ (w - 1)) ≤ v) (hhi : v < (2 : Int) ^ (w - 1)) :
    unzigzag w (zigzag w v) = v := by
  have hw1 : w - 1 + 1 = w := by omega
  have hpN : (2 : Nat) ^ w = 2 * (2 : Nat) ^ (w - 1) := by
    conv_lhs => rw [← hw1]
    rw [pow_succ']
  have hp : (2 : Int) ^ w = 2 * (2 : Int) ^ (w - 1) := by
    conv_lhs => rw [← hw1]
    rw [pow_succ']
  have hcast : (((2 : Nat) ^ w : Nat) : Int) = (2 : Int) ^ w := by push_cast; ring
  have hcastA : (((2 : Nat) ^ (w - 1) : Nat) : Int) = (2 : Int) ^ (w - 1) := by
    push_cast; ring
  rw [zigzag_eq w v hw hlo hhi]
  rcases le_or_lt 0 v with hv0 | hv0
  · rw [if_pos hv0]
    have ha : (2 * v).toNat = 2 * v.toNat := by omega
    have hsh : (2 * v.toNat) >>> 1 = v.toNat := by
      rw [Nat.shiftRight_eq_div_pow]
      omega
    have hand : 2 * v.toNat &&& 1 = 0 := by
      rw [Nat.and_one_is_mod]
      omega
    simp only [unzigzag]
    rw [ha, hsh, hand]
    have hts0 : toSigned w 0 = 0 := by
      simp only [toSigned]
      rw [if_pos (Nat.two_pow_pos _)]
      norm_num
    have htsv : toSigned w v.toNat = (v.toNat : Int) := by
      simp only [toSigned]
      rw [branch_pos (by omega)]
    rw [hts0, htsv]
    simp only [ixor]
    rw [neg_zero]
    have htu0 : toUnsigned w 0 = 0 := by
      simp [toUnsigned]
    have htuv : toUnsigned w ((v.toNat : Nat) : Int) = v.toNat :=
      toUnsigned_ofNat w v.toNat (by omega)
    rw [htu0, htuv, Nat.xor_zero]
    simp only [toSigned]
    rw [branch_pos (by omega)]
    omega
  · rw [branch_neg (by omega)]
    have ha : (-(2 * v) - 1).toNat = 2 * (-v - 1).toNat + 1 := by omega
    have hsh : (2 * (-v - 1).toNat + 1) >>> 1 = (-v - 1).toNat := by
      rw [Nat.shiftRight_eq_div_pow]
      omega
    have hand : (2 * (-v - 1).toNat + 1) &&& 1 = 1 := by
      rw [Nat.and_one_is_mod]
      omega
    simp only [unzigzag]
    rw [ha, hsh, hand]
    have hts1 : toSigned w 1 = 1 := by
      simp only [toSigned]
      have h2le : (2 : Nat) ^ 1 ≤ 2 ^ (w - 1) := Nat.pow_le_pow_right (by norm_num) (by omega)
      rw [branch_pos (by omega)]
      norm_num
    have htsa : toSigned w (-v - 1).toNat = (((-v - 1).toNat : Nat) : Int) := by
      simp only [toSigned]
      rw [branch_pos (by omega)]
    rw [hts1, htsa]
    simp only [ixor]
    have htua : toUnsigned w (((-v - 1).toNat : Nat) : Int) = (-v - 1).toNat :=
      toUnsigned_ofNat w (-v - 1).toNat (by omega)
    have htun : toUnsigned w (-1) = 2 ^ w - 1 := toUnsigned_neg_one w
    rw [htua, htun, xor_two_pow_sub_one w _ (by omega)]
    simp only [toSigned]
    rw [branch_neg (by omega)]
    omega

/-! ### Round-trip for the signed encoders -/

theorem encode_i32_ok (buf : Buf) (v : Int) (hlo : -(2 ^ 31) ≤ v) (hhi : v < 2 ^ 31) :
    decode_i32 (encode_i32 buf v).1 = (v, (encode_i32 buf v).2) ∧
    encoded_len ((encode_i32 buf v).1 0) = (encode_i32 buf v).2 := by
  have hlo' : -((2 : Int) ^ (32 - 1)) ≤ v := by
    norm_num at hlo ⊢
    exact hlo
  have hhi' : v < (2 : Int) ^ (32 - 1) := by
    norm_num at hhi ⊢
    exact hhi
  have hzlt : zigzag 32 v < 2 ^ 32 := zigzag_lt 32 v (by norm_num) hlo' hhi'
  obtain ⟨hrt, hlen⟩ := encode_u32_ok buf (zigzag 32 v) hzlt
  simp only [encode_i32, decode_i32]
  rw [hrt]
  exact ⟨by rw [unzigzag_zigzag 32 v (by norm_num) hlo' hhi'], hlen⟩

theorem encode_i64_ok (buf : Buf) (v : Int) (hlo : -(2 ^ 63) ≤ v) (hhi : v < 2 ^ 63) :
    decode_i64 (encode_i64 buf v).1 = (v, (encode_i64 buf v).2) ∧
    encoded_len ((encode_i64 buf v).1 0) = (encode_i64 buf v).2 := by
  have hlo' : -((2 : Int) ^ (64 - 1)) ≤ v := by
    norm_num at hlo ⊢
    exact hlo
  have hhi' : v < (2 : Int) ^ (64 - 1) := by
    norm_num at hhi ⊢
    exact hhi
  have hzlt : zigzag 64 v < 2 ^ 64 := zigzag_lt 64 v (by norm_num) hlo' hhi'
  obtain ⟨hrt, hlen⟩ := encode_u64_ok buf (zigzag 64 v) hzlt
  simp only [encode_i64, decode_i64]
  rw [hrt]
  exact ⟨by rw [unzigzag_zigzag 64 v (by norm_num) hlo' hhi'], hlen⟩

theorem encode_i128_ok (buf : Buf) (v : Int) (hlo : -(2 ^ 127) ≤ v) (hhi : v < 2 ^ 127) :
    decode_i128 (encode_i128 buf v).1 = (v, (encode_i128 buf v).2) ∧
    encoded_len ((encode_i128 buf v).1 0) = (encode_i128 buf v).2 := by
  have hlo' : -((2 : Int) ^ (128 - 1)) ≤ v := by
    norm_num at hlo ⊢
    exact hlo
  have hhi' : v < (2 : Int) ^ (128 - 1) := by
    norm_num at hhi ⊢
    exact hhi
  have hzlt : zigzag 128 v < 2 ^ 128 := zigzag_lt 128 v (by norm_num) hlo' hhi'
  obtain ⟨hrt, hlen⟩ := encode_u128_ok buf (zigzag 128 v) hzlt
  simp only [encode_i128, decode_i128]
  rw [hrt]
  exact ⟨by rw [unzigzag_zigzag 128 v (by norm_num) hlo' hhi'], hlen⟩

/-! ### Byte swapping and the float adapters -/

theorem swapBytes32_lt (x : Nat) : swapBytes32 x < 2 ^ 32 := by
  simp only [swapBytes32]
  omega

theorem swapBytes64_lt (x : Nat) : swapBytes64 x < 2 ^ 64 := by
  simp only [swapBytes64]
  omega

theorem swapBytes32_bytes (b0 b1 b2 b3 : Nat) (h0 : b0 < 256) (h1 : b1 < 256)
    (h2 : b2 < 256) (h3 : b3 < 256) :
    swapBytes32 (b0 + 256 * b1 + 65536 * b2 + 16777216 * b3) =
      b3 + 256 * b2 + 65536 * b1 + 16777216 * b0 := by
  simp only [swapBytes32]
  omega

theorem swapBytes32_swapBytes32 (x : Nat) (h : x < 2 ^ 32) :
    swapBytes32 (swapBytes32 x) = x := by
  obtain ⟨b0, b1, b2, b3, h0, h1, h2, h3, rfl⟩ : ∃ b0 b1 b2 b3, b0 < 256 ∧ b1 < 256 ∧
      b2 < 256 ∧ b3 < 256 ∧ x = b0 + 256 * b1 + 65536 * b2 + 16777216 * b3 :=
    ⟨x % 256, x / 256 % 256, x / 65536 % 256, x / 16777216 % 256,
      Nat.mod_lt _ (by norm_num), Nat.mod_lt _ (by norm_num), Nat.mod_lt _ (by norm_num),
      Nat.mod_lt _ (by norm_num), by omega⟩
  rw [swapBytes32_bytes _ _ _ _ h0 h1 h2 h3, swapBytes32_bytes _ _ _ _ h3 h2 h1 h0]

theorem swapBytes64_bytes (b0 b1 b2 b3 b4 b5 b6 b7 : Nat) (h0 : b0 < 256) (h1 : b1 < 256)
    (h2 : b2 < 256) (h3 : b3 < 256) (h4 : b4 < 256) (h5 : b5 < 256) (h6 : b6 < 256)
    (h7 : b7 < 256) :
    swapBytes64 (b0 + 256 * b1 + 65536 * b2 + 16777216 * b3 + 4294967296 * b4 +
        1099511627776 * b5 + 281474976710656 * b6 + 72057594037927936 * b7) =
      b7 + 256 * b6 + 65536 * b5 + 16777216 * b4 + 4294967296 * b3 +
        1099511627776 * b2 + 281474976710656 * b1 + 72057594037927936 * b0 := by
  simp only [swapBytes64]
  omega

theorem swapBytes64_swapBytes64 (x : Nat) (h : x < 2 ^ 64) :
    swapBytes64 (swapBytes64 x) = x := by
  obtain ⟨b0, b1, b2, b3, b4, b5, b6, b7, h0, h1, h2, h3, h4, h5, h6, h7, rfl⟩ :
      ∃ b0 b1 b2 b3 b4 b5 b6 b7, b0 < 256 ∧ b1 < 256 ∧ b2 < 256 ∧ b3 < 256 ∧ b4 < 256 ∧
        b5 < 256 ∧ b6 < 256 ∧ b7 < 256 ∧ x = b0 + 256 * b1 + 65536 * b2 + 16777216 * b3 +
          4294967296 * b4 + 1099511627776 * b5 + 281474976710656 * b6 +
          72057594037927936 * b7 :=
    ⟨x % 256, x / 256 % 256, x / 65536 % 256, x / 16777216 % 256, x / 4294967296 % 256,
      x / 1099511627776 % 256, x / 281474976710656 % 256, x / 72057594037927936 % 256,
      Nat.mod_lt _ (by norm_num), Nat.mod_lt _ (by norm_num), Nat.mod_lt _ (by norm_num),
      Nat.mod_lt _ (by norm_num), Nat.mod_lt _ (by norm_num), Nat.mod_lt _ (by norm_num),
      Nat.mod_lt _ (by norm_num), Nat.mod_lt _ (by norm_num), by omega⟩
  rw [swapBytes64_bytes _ _ _ _ _ _ _ _ h0 h1 h2 h3 h4 h5 h6 h7,
    swapBytes64_bytes _ _ _ _ _ _ _ _ h7 h6 h5 h4 h3 h2 h1 h0]

theorem encode_f32_ok (buf : Buf) (bits : Nat) (h : bits < 2 ^ 32) :
    decode_f32 (encode_f32 buf bits).1 = (bits, (encode_f32 buf bits).2) ∧
    encoded_len ((encode_f32 buf bits).1 0) = (encode_f32 buf bits).2 := by
  have hs : swapBytes32 bits < 2 ^ 32 := swapBytes32_lt bits
  obtain ⟨hrt, hlen⟩ := encode_u32_ok buf (swapBytes32 bits) hs
  simp only [encode_f32, decode_f32]
  rw [hrt]
  exact ⟨by rw [swapBytes32_swapBytes32 bits h], hlen⟩

theorem encode_f64_ok (buf : Buf) (bits : Nat) (h : bits < 2 ^ 64) :
    decode_f64 (encode_f64 buf bits).1 = (bits, (encode_f64 buf bits).2) ∧
    encoded_len ((encode_f64 buf bits).1 0) = (encode_f64 buf bits).2 := by
  have hs : swapBytes64 bits < 2 ^ 64 := swapBytes64_lt bits
  obtain ⟨hrt, hlen⟩ := encode_u64_ok buf (swapBytes64 bits) hs
  simp only [encode_f64, decode_f64]
  rw [hrt]
  exact ⟨by rw [swapBytes64_swapBytes64 bits h], hlen⟩

/-! ### Encoded lengths as step functions of the value -/

theorem encode_u32_len (buf : Buf) (v : Nat) : (encode_u32 buf v).2 = specStepLen32 v := by
  simp only [encode_u32, specStepLen32]
  split_ifs <;> first | rfl | (exfalso; omega)

theorem encode_u128_eq_encode_u32 (buf : Buf) (v : Nat) (h : v < 0x10000000) :
    encode_u128 buf v = encode_u32 buf v := by
  rcases lt_or_ge v 0x80 with h1 | h1
  · simp only [encode_u128, encode_u32]
    rw [if_pos h1, if_pos h1]
  · simp only [encode_u128]
    rw [branch_neg (by omega), if_pos h]

theorem encode_u64_len (buf : Buf) (v : Nat) (hv : v < 2 ^ 64) :
    (encode_u64 buf v).2 = specStepLen64 v := by
  rcases lt_or_ge v 0x10000000 with h | h
  · rcases lt_or_ge v 0x80 with h1 | h1
    · have e : (encode_u64 buf v).2 = 1 := by
        simp only [encode_u64]
        rw [if_pos h1]
      rw [e]
      simp only [specStepLen64]
      rw [branch_pos (by omega)]
    rcases lt_or_ge v 0x4000 with h2 | h2
    · have e : (encode_u64 buf v).2 = 2 := by
        simp only [encode_u64]
        rw [branch_neg (by omega), branch_pos (by omega), if_pos h2]
      rw [e]
      simp only [specStepLen64]
      rw [branch_neg (by omega), branch_pos (by omega)]
    rcases lt_or_ge v 0x200000 with h3 | h3
    · have e : (encode_u64 buf v).2 = 3 := by
        simp only [encode_u64]
        rw [branch_neg (by omega), branch_pos (by omega), branch_neg (by omega), if_pos h3]
      rw [e]
      simp only [specStepLen64]
      rw [branch_neg (by omega), branch_neg (by omega), branch_pos (by omega)]
    · have e : (encode_u64 buf v).2 = 4 := by
        simp only [encode_u64]
        rw [branch_neg (by omega), if_pos h, branch_neg (by omega), branch_neg (by omega)]
      rw [e]
      simp only [specStepLen64]
      rw [branch_neg (by omega), branch_neg (by omega), branch_neg (by omega), branch_pos (by omega)]
  · have hv128 : v < 2 ^ 128 := by omega
    obtain ⟨hm1, hm2, hm3⟩ := bitLen_spec v (by omega) hv128
    have hub : bitLen v ≤ 64 := (bitLen_le_iff v 64 hv128).mpr hv
    have hlb : 29 ≤ bitLen v := by
      by_contra hc
      push_neg at hc
      have := (bitLen_le_iff v 28 hv128).mp (by omega)
      omega
    have he : (encode_u64 buf v).2 = ((leadingZeros 64 v >>> 3) ^^^ 0b111) + 2 := by
      simp only [encode_u64]
      rw [branch_neg (by omega), branch_neg (by omega)]
    have hlz : leadingZeros 64 v >>> 3 = (64 - bitLen v) / 8 := by
      simp only [leadingZeros]
      rw [Nat.shiftRight_eq_div_pow]
    have hxor : (64 - bitLen v) / 8 ^^^ 0b111 = 7 - (64 - bitLen v) / 8 := by
      have h8 := xor_two_pow_sub_one 3 ((64 - bitLen v) / 8) (by omega)
      norm_num at h8
      exact h8
    rw [he, hlz, hxor]
    have i32 := bitLen_le_iff v 32 hv128
    have i40 := bitLen_le_iff v 40 hv128
    have i48 := bitLen_le_iff v 48 hv128
    have i56 := bitLen_le_iff v 56 hv128
    rcases Nat.lt_or_ge v (2 ^ 32) with g5 | g5
    · have hv : specStepLen64 v = 5 := by
          unfold specStepLen64
          rw [branch_neg (by omega), branch_neg (by omega), branch_neg (by omega), branch_neg (by omega), branch_pos (by omega)]
      rw [hv]
      omega
    rcases Nat.lt_or_ge v (2 ^ 40) with g6 | g6
    · have hv : specStepLen64 v = 6 := by
          unfold specStepLen64
          rw [branch_neg (by omega), branch_neg (by omega), branch_neg (by omega), branch_neg (by omega), branch_neg (by omega), branch_pos (by omega)]
      rw [hv]
      omega
    rcases Nat.lt_or_ge v (2 ^ 48) with g7 | g7
    · have hv : specStepLen64 v = 7 := by
          unfold specStepLen64
          rw [branch_neg (by omega), branch_neg (by omega), branch_neg (by omega), branch_neg (by omega), branch_neg (by omega), branch_neg (by omega), branch_pos (by omega)]
      rw [hv]
      omega
    rcases Nat.lt_or_ge v (2 ^ 56) with g8 | g8
    · have hv : specStepLen64 v = 8 := by
          unfold specStepLen64
          rw [branch_neg (by omega), branch_neg (by omega), branch_neg (by omega), branch_neg (by omega), branch_neg (by omega), branch_neg (by omega), branch_neg (by omega), branch_pos (by omega)]
      rw [hv]
      omega
    · have hv : specStepLen64 v = 9 := by
          unfold specStepLen64
          rw [branch_neg (by omega), branch_neg (by omega), branch_neg (by omega), branch_neg (by omega), branch_neg (by omega), branch_neg (by omega), branch_neg (by omega), branch_neg (by omega)]
      rw [hv]
      omega

theorem encode_u128_len (buf : Buf) (v : Nat) (hv : v < 2 ^ 128) :
    (encode_u128 buf v).2 = specStepLen128 v := by
  rcases lt_or_ge v 0x10000000 with h | h
  · rw [encode_u128_eq_encode_u32 buf v h, encode_u32_len]
    rcases Nat.lt_or_ge v (2 ^ 7) with g1 | g1
    · have e1 : specStepLen32 v = 1 := by
        unfold specStepLen32
        rw [branch_pos (by omega)]
      have e2 : specStepLen128 v = 1 := by
        unfold specStepLen128
        rw [branch_pos (by omega)]
      rw [e1, e2]
    rcases Nat.lt_or_ge v (2 ^ 14) with g2 | g2
    · have e1 : specStepLen32 v = 2 := by
        unfold specStepLen32
        rw [branch_neg (by omega), branch_pos (by omega)]
      have e2 : specStepLen128 v = 2 := by
        unfold specStepLen128
        rw [branch_neg (by omega), branch_pos (by omega)]
      rw [e1, e2]
    rcases Nat.lt_or_ge v (2 ^ 21) with g3 | g3
    · have e1 : specStepLen32 v = 3 := by
        unfold specStepLen32
        rw [branch_neg (by omega), branch_neg (by omega), branch_pos (by omega)]
      have e2 : specStepLen128 v = 3 := by
        unfold specStepLen128
        rw [branch_neg (by omega), branch_neg (by omega), branch_pos (by omega)]
      rw [e1, e2]
    rcases Nat.lt_or_ge v (2 ^ 28) with g4 | g4
    · have e1 : specStepLen32 v = 4 := by
        unfold specStepLen32
        rw [branch_neg (by omega), branch_neg (by omega), branch_neg (by omega), branch_pos (by omega)]
      have e2 : specStepLen128 v = 4 := by
        unfold specStepLen128
        rw [branch_neg (by omega), branch_neg (by omega), branch_neg (by omega), branch_pos (by omega)]
      rw [e1, e2]
    · exfalso
      omega
  · obtain ⟨hm1, hm2, hm3⟩ := bitLen_spec v (by omega) hv
    have hub : bitLen v ≤ 128 := (bitLen_le_iff v 128 hv).mpr hv
    have hlb : 29 ≤ bitLen v := by
      by_contra hc
      push_neg at hc
      have := (bitLen_le_iff v 28 hv).mp (by omega)
      omega
    have he : (encode_u128 buf v).2 = ((leadingZeros 128 v >>> 3) ^^^ 0b1111) + 2 := by
      simp only [encode_u128]
      rw [branch_neg (by omega), branch_neg (by omega)]
    have hlz : leadingZeros 128 v >>> 3 = (128 - bitLen v) / 8 := by
      simp only [leadingZeros]
      rw [Nat.shiftRight_eq_div_pow]
    have hxor : (128 - bitLen v) / 8 ^^^ 0b1111 = 15 - (128 - bitLen v) / 8 := by
      have h16 := xor_two_pow_sub_one 4 ((128 - bitLen v) / 8) (by omega)
      norm_num at h16
      exact h16
    rw [he, hlz, hxor]
    have i32 := bitLen_le_iff v 32 hv
    have i40 := bitLen_le_iff v 40 hv
    have i48 := bitLen_le_iff v 48 hv
    have i56 := bitLen_le_iff v 56 hv
    have i64 := bitLen_le_iff v 64 hv
    have i72 := bitLen_le_iff v 72 hv
    have i80 := bitLen_le_iff v 80 hv
    have i88 := bitLen_le_iff v 88 hv
    have i96 := bitLen_le_iff v 96 hv
    have i104 := bitLen_le_iff v 104 hv
    have i112 := bitLen_le_iff v 112 hv
    have i120 := bitLen_le_iff v 120 hv
    rcases Nat.lt_or_ge v (2 ^ 32) with g5 | g5
    · have hv : specStepLen128 v = 5 := by
          unfold specStepLen128
          rw [branch_neg (by omega), branch_neg (by omega), branch_neg (by omega), branch_neg (by omega), branch_pos (by omega)]
      rw [hv]
      omega
    rcases Nat.lt_or_ge v (2 ^ 40) with g6 | g6
    · have hv : specStepLen128 v = 6 := by
          unfold specStepLen128
          rw [branch_neg (by omega), branch_neg (by omega), branch_neg (by omega), branch_neg (by omega), branch_neg (by omega), branch_pos (by omega)]
      rw [hv]
      omega
    rcases Nat.lt_or_ge v (2 ^ 48) with g7 | g7
    · have hv : specStepLen128 v = 7 := by
          unfold specStepLen128
          rw [branch_neg (by omega), branch_neg (by omega), branch_neg (by omega), branch_neg (by omega), branch_neg (by omega), branch_neg (by omega), branch_pos (by omega)]
      rw [hv]
      omega
    rcases Nat.lt_or_ge v (2 ^ 56) with g8 | g8
    · have hv : specStepLen128 v = 8 := by
          unfold specStepLen128
          rw [branch_neg (by omega), branch_neg (by omega), branch_neg (by omega), branch_neg (by omega), branch_neg (by omega), branch_neg (by omega), branch_neg (by omega), branch_pos (by omega)]
      rw [hv]
      omega
    rcases Nat.lt_or_ge v (2 ^ 64) with g9 | g9
    · have hv : specStepLen128 v = 9 := by
          unfold specStepLen128
          rw [branch_neg (by omega), branch_neg (by omega), branch_neg (by omega), branch_neg (by omega), branch_neg (by omega), branch_neg (by omega), branch_neg (by omega), branch_neg (by omega), branch_pos (by omega)]
      rw [hv]
      omega
    rcases Nat.lt_or_ge v (2 ^ 72) with g10 | g10
    · have hv : specStepLen128 v = 10 := by
          unfold specStepLen128
          rw [branch_neg (by omega), branch_neg (by omega), branch_neg (by omega), branch_neg (by omega), branch_neg (by omega), branch_neg (by omega), branch_neg (by omega), branch_neg (by omega), branch_neg (by omega), branch_pos (by omega)]
      rw [hv]
      omega
    rcases Nat.lt_or_ge v (2 ^ 80) with g11 | g11
    · have hv : specStepLen128 v = 11 := by
          unfold specStepLen128
          rw [branch_neg (by omega), branch_neg (by omega), branch_neg (by omega), branch_neg (by omega), branch_neg (by omega), branch_neg (by omega), branch_neg (by omega), branch_neg (by omega), branch_neg (by omega), branch_neg (by omega), branch_pos (by omega)]
      rw [hv]
      omega
    rcases Nat.lt_or_ge v (2 ^ 88) with g12 | g12
    · have hv : specStepLen128 v = 12 := by
          unfold specStepLen128
          rw [branch_neg (by omega), branch_neg (by omega), branch_neg (by omega), branch_neg (by omega), branch_neg (by omega), branch_neg (by omega), branch_neg (by omega), branch_neg (by omega), branch_neg (by omega), branch_neg (by omega), branch_neg (by omega), branch_pos (by omega)]
      rw [hv]
      omega
    rcases Nat.lt_or_ge v (2 ^ 96) with g13 | g13
    · have hv : specStepLen128 v = 13 := by
          unfold specStepLen128
          rw [branch_neg (by omega), branch_neg (by omega), branch_neg (by omega), branch_neg (by omega), branch_neg (by omega), branch_neg (by omega), branch_neg (by omega), branch_neg (by omega), branch_neg (by omega), branch_neg (by omega), branch_neg (by omega), branch_neg (by omega), branch_pos (by omega)]
      rw [hv]
      omega
    rcases Nat.lt_or_ge v (2 ^ 104) with g14 | g14
    · have hv : specStepLen128 v = 14 := by
          unfold specStepLen128
          rw [branch_neg (by omega), branch_neg (by omega), branch_neg (by omega), branch_neg (by omega), branch_neg (by omega), branch_neg (by omega), branch_neg (by omega), branch_neg (by omega), branch_neg (by omega), branch_neg (by omega), branch_neg (by omega), branch_neg (by omega), branch_neg (by omega), branch_pos (by omega)]
      rw [hv]
      omega
    rcases Nat.lt_or_ge v (2 ^ 112) with g15 | g15
    · have hv : specStepLen128 v = 15 := by
          unfold specStepLen128
          rw [branch_neg (by omega), branch_neg (by omega), branch_neg (by omega), branch_neg (by omega), branch_neg (by omega), branch_neg (by omega), branch_neg (by omega), branch_neg (by omega), branch_neg (by omega), branch_neg (by omega), branch_neg (by omega), branch_neg (by omega), branch_neg (by omega), branch_neg (by omega), branch_pos (by omega)]
      rw [hv]
      omega
    rcases Nat.lt_or_ge v (2 ^ 120) with g16 | g16
    · have hv : specStepLen128 v = 16 := by
          unfold specStepLen128
          rw [branch_neg (by omega), branch_neg (by omega), branch_neg (by omega), branch_neg (by omega), branch_neg (by omega), branch_neg (by omega), branch_neg (by omega), branch_neg (by omega), branch_neg (by omega), branch_neg (by omega), branch_neg (by omega), branch_neg (by omega), branch_neg (by omega), branch_neg (by omega), branch_neg (by omega), branch_pos (by omega)]
      rw [hv]
      omega
    · have hv : specStepLen128 v = 17 := by
          unfold specStepLen128
          rw [branch_neg (by omega), branch_neg (by omega), branch_neg (by omega), branch_neg (by omega), branch_neg (by omega), branch_neg (by omega), branch_neg (by omega), branch_neg (by omega), branch_neg (by omega), branch_neg (by omega), branch_neg (by omega), branch_neg (by omega), branch_neg (by omega), branch_neg (by omega), branch_neg (by omega), branch_neg (by omega)]
      rw [hv]
      omega

theorem specStepLen32_lb (w : Nat) :
    1 ≤ specStepLen32 w ∧
      (2 ^ 7 ≤ w → 2 ≤ specStepLen32 w) ∧
      (2 ^ 14 ≤ w → 3 ≤ specStepLen32 w) ∧
      (2 ^ 21 ≤ w → 4 ≤ specStepLen32 w) ∧
      (2 ^ 28 ≤ w → 5 ≤ specStepLen32 w) := by
  rcases Nat.lt_or_ge w (2 ^ 7) with g1 | g1
  · have hv : specStepLen32 w = 1 := by
      unfold specStepLen32
      rw [branch_pos (by omega)]
    rw [hv]
    omega
  rcases Nat.lt_or_ge w (2 ^ 14) with g2 | g2
  · have hv : specStepLen32 w = 2 := by
      unfold specStepLen32
      rw [branch_neg (by omega), branch_pos (by omega)]
    rw [hv]
    omega
  rcases Nat.lt_or_ge w (2 ^ 21) with g3 | g3
  · have hv : specStepLen32 w = 3 := by
      unfold specStepLen32
      rw [branch_neg (by omega), branch_neg (by omega), branch_pos (by omega)]
    rw [hv]
    omega
  rcases Nat.lt_or_ge w (2 ^ 28) with g4 | g4
  · have hv : specStepLen32 w = 4 := by
      unfold specStepLen32
      rw [branch_neg (by omega), branch_neg (by omega), branch_neg (by omega), branch_pos (by omega)]
    rw [hv]
    omega
  · have hv : specStepLen32 w = 5 := by
      unfold specStepLen32
      rw [branch_neg (by omega), branch_neg (by omega), branch_neg (by omega), branch_neg (by omega)]
    rw [hv]
    omega

theorem specStepLen32_mono (v w : Nat) (h : v ≤ w) : specStepLen32 v ≤ specStepLen32 w := by
  obtain ⟨l0, l1, l2, l3, l4⟩ := specStepLen32_lb w
  rcases Nat.lt_or_ge v (2 ^ 7) with g1 | g1
  · have hv : specStepLen32 v = 1 := by
      unfold specStepLen32
      rw [branch_pos (by omega)]
    rw [hv]
    omega
  rcases Nat.lt_or_ge v (2 ^ 14) with g2 | g2
  · have hv : specStepLen32 v = 2 := by
      unfold specStepLen32
      rw [branch_neg (by omega), branch_pos (by omega)]
    rw [hv]
    have := l1 (by omega)
    omega
  rcases Nat.lt_or_ge v (2 ^ 21) with g3 | g3
  · have hv : specStepLen32 v = 3 := by
      unfold specStepLen32
      rw [branch_neg (by omega), branch_neg (by omega), branch_pos (by omega)]
    rw [hv]
    have := l2 (by omega)
    omega
  rcases Nat.lt_or_ge v (2 ^ 28) with g4 | g4
  · have hv : specStepLen32 v = 4 := by
      unfold specStepLen32
      rw [branch_neg (by omega), branch_neg (by omega), branch_neg (by omega), branch_pos (by omega)]
    rw [hv]
    have := l3 (by omega)
    omega
  · have hv : specStepLen32 v = 5 := by
      unfold specStepLen32
      rw [branch_neg (by omega), branch_neg (by omega), branch_neg (by omega), branch_neg (by omega)]
    rw [hv]
    have := l4 (by omega)
    omega
theorem specStepLen64_lb (w : Nat) :
    1 ≤ specStepLen64 w ∧
      (2 ^ 7 ≤ w → 2 ≤ specStepLen64 w) ∧
      (2 ^ 14 ≤ w → 3 ≤ specStepLen64 w) ∧
      (2 ^ 21 ≤ w → 4 ≤ specStepLen64 w) ∧
      (2 ^ 28 ≤ w → 5 ≤ specStepLen64 w) ∧
      (2 ^ 32 ≤ w → 6 ≤ specStepLen64 w) ∧
      (2 ^ 40 ≤ w → 7 ≤ specStepLen64 w) ∧
      (2 ^ 48 ≤ w → 8 ≤ specStepLen64 w) ∧
      (2 ^ 56 ≤ w → 9 ≤ specStepLen64 w) := by
  rcases Nat.lt_or_ge w (2 ^ 7) with g1 | g1
  · have hv : specStepLen64 w = 1 := by
      unfold specStepLen64
      rw [branch_pos (by omega)]
    rw [hv]
    omega
  rcases Nat.lt_or_ge w (2 ^ 14) with g2 | g2
  · have hv : specStepLen64 w = 2 := by
      unfold specStepLen64
      rw [branch_neg (by omega), branch_pos (by omega)]
    rw [hv]
    omega
  rcases Nat.lt_or_ge w (2 ^ 21) with g3 | g3
  · have hv : specStepLen64 w = 3 := by
      unfold specStepLen64
      rw [branch_neg (by omega), branch_neg (by omega), branch_pos (by omega)]
    rw [hv]
    omega
  rcases Nat.lt_or_ge w (2 ^ 28) with g4 | g4
  · have hv : specStepLen64 w = 4 := by
      unfold specStepLen64
      rw [branch_neg (by omega), branch_neg (by omega), branch_neg (by omega), branch_pos (by omega)]
    rw [hv]
    omega
  rcases Nat.lt_or_ge w (2 ^ 32) with g5 | g5
  · have hv : specStepLen64 w = 5 := by
      unfold specStepLen64
      rw [branch_neg (by omega), branch_neg (by omega), branch_neg (by omega), branch_neg (by omega), branch_pos (by omega)]
    rw [hv]
    omega
  rcases Nat.lt_or_ge w (2 ^ 40) with g6 | g6
  · have hv : specStepLen64 w = 6 := by
      unfold specStepLen64
      rw [branch_neg (by omega), branch_neg (by omega), branch_neg (by omega), branch_neg (by omega), branch_neg (by omega), branch_pos (by omega)]
    rw [hv]
    omega
  rcases Nat.lt_or_ge w (2 ^ 48) with g7 | g7
  · have hv : specStepLen64 w = 7 := by
      unfold specStepLen64
      rw [branch_neg (by omega), branch_neg (by omega), branch_neg (by omega), branch_neg (by omega), branch_neg (by omega), branch_neg (by omega), branch_pos (by omega)]
    rw [hv]
    omega
  rcases Nat.lt_or_ge w (2 ^ 56) with g8 | g8
  · have hv : specStepLen64 w = 8 := by
      unfold specStepLen64
      rw [branch_neg (by omega), branch_neg (by omega), branch_neg (by omega), branch_neg (by omega), branch_neg (by omega), branch_neg (by omega), branch_neg (by omega), branch_pos (by omega)]
    rw [hv]
    omega
  · have hv : specStepLen64 w = 9 := by
      unfold specStepLen64
      rw [branch_neg (by omega), branch_neg (by omega), branch_neg (by omega), branch_neg (by omega), branch_neg (by omega), branch_neg (by omega), branch_neg (by omega), branch_neg (by omega)]
    rw [hv]
    omega

theorem specStepLen64_mono (v w : Nat) (h : v ≤ w) : specStepLen64 v ≤ specStepLen64 w := by
  obtain ⟨l0, l1, l2, l3, l4, l5, l6, l7, l8⟩ := specStepLen64_lb w
  rcases Nat.lt_or_ge v (2 ^ 7) with g1 | g1
  · have hv : specStepLen64 v = 1 := by
      unfold specStepLen64
      rw [branch_pos (by omega)]
    rw [hv]
    omega
  rcases Nat.lt_or_ge v (2 ^ 14) with g2 | g2
  · have hv : specStepLen64 v = 2 := by
      unfold specStepLen64
      rw [branch_neg (by omega), branch_pos (by omega)]
    rw [hv]
    have := l1 (by omega)
    omega
  rcases Nat.lt_or_ge v (2 ^ 21) with g3 | g3
  · have hv : specStepLen64 v = 3 := by
      unfold specStepLen64
      rw [branch_neg (by omega), branch_neg (by omega), branch_pos (by omega)]
    rw [hv]
    have := l2 (by omega)
    omega
  rcases Nat.lt_or_ge v (2 ^ 28) with g4 | g4
  · have hv : specStepLen64 v = 4 := by
      unfold specStepLen64
      rw [branch_neg (by omega), branch_neg (by omega), branch_neg (by omega), branch_pos (by omega)]
    rw [hv]
    have := l3 (by omega)
    omega
  rcases Nat.lt_or_ge v (2 ^ 32) with g5 | g5
  · have hv : specStepLen64 v = 5 := by
      unfold specStepLen64
      rw [branch_neg (by omega), branch_neg (by omega), branch_neg (by omega), branch_neg (by omega), branch_pos (by omega)]
    rw [hv]
    have := l4 (by omega)
    omega
  rcases Nat.lt_or_ge v (2 ^ 40) with g6 | g6
  · have hv : specStepLen64 v = 6 := by
      unfold specStepLen64
      rw [branch_neg (by omega), branch_neg (by omega), branch_neg (by omega), branch_neg (by omega), branch_neg (by omega), branch_pos (by omega)]
    rw [hv]
    have := l5 (by omega)
    omega
  rcases Nat.lt_or_ge v (2 ^ 48) with g7 | g7
  · have hv : specStepLen64 v = 7 := by
      unfold specStepLen64
      rw [branch_neg (by omega), branch_neg (by omega), branch_neg (by omega), branch_neg (by omega), branch_neg (by omega), branch_neg (by omega), branch_pos (by omega)]
    rw [hv]
    have := l6 (by omega)
    omega
  rcases Nat.lt_or_ge v (2 ^ 56) with g8 | g8
  · have hv : specStepLen64 v = 8 := by
      unfold specStepLen64
      rw [branch_neg (by omega), branch_neg (by omega), branch_neg (by omega), branch_neg (by omega), branch_neg (by omega), branch_neg (by omega), branch_neg (by omega), branch_pos (by omega)]
    rw [hv]
    have := l7 (by omega)
    omega
  · have hv : specStepLen64 v = 9 := by
      unfold specStepLen64
      rw [branch_neg (by omega), branch_neg (by omega), branch_neg (by omega), branch_neg (by omega), branch_neg (by omega), branch_neg (by omega), branch_neg (by omega), branch_neg (by omega)]
    rw [hv]
    have := l8 (by omega)
    omega
theorem specStepLen128_lb (w : Nat) :
    1 ≤ specStepLen128 w ∧
      (2 ^ 7 ≤ w → 2 ≤ specStepLen128 w) ∧
      (2 ^ 14 ≤ w → 3 ≤ specStepLen128 w) ∧
      (2 ^ 21 ≤ w → 4 ≤ specStepLen128 w) ∧
      (2 ^ 28 ≤ w → 5 ≤ specStepLen128 w) ∧
      (2 ^ 32 ≤ w → 6 ≤ specStepLen128 w) ∧
      (2 ^ 40 ≤ w → 7 ≤ specStepLen128 w) ∧
      (2 ^ 48 ≤ w → 8 ≤ specStepLen128 w) ∧
      (2 ^ 56 ≤ w → 9 ≤ specStepLen128 w) ∧
      (2 ^ 64 ≤ w → 10 ≤ specStepLen128 w) ∧
      (2 ^ 72 ≤ w → 11 ≤ specStepLen128 w) ∧
      (2 ^ 80 ≤ w → 12 ≤ specStepLen128 w) ∧
      (2 ^ 88 ≤ w → 13 ≤ specStepLen128 w) ∧
      (2 ^ 96 ≤ w → 14 ≤ specStepLen128 w) ∧
      (2 ^ 104 ≤ w → 15 ≤ specStepLen128 w) ∧
      (2 ^ 112 ≤ w → 16 ≤ specStepLen128 w) ∧
      (2 ^ 120 ≤ w → 17 ≤ specStepLen128 w) := by
  rcases Nat.lt_or_ge w (2 ^ 7) with g1 | g1
  · have hv : specStepLen128 w = 1 := by
      unfold specStepLen128
      rw [branch_pos (by omega)]
    rw [hv]
    omega
  rcases Nat.lt_or_ge w (2 ^ 14) with g2 | g2
  · have hv : specStepLen128 w = 2 := by
      unfold specStepLen128
      rw [branch_neg (by omega), branch_pos (by omega)]
    rw [hv]
    omega
  rcases Nat.lt_or_ge w (2 ^ 21) with g3 | g3
  · have hv : specStepLen128 w = 3 := by
      unfold specStepLen128
      rw [branch_neg (by omega), branch_neg (by omega), branch_pos (by omega)]
    rw [hv]
    omega
  rcases Nat.lt_or_ge w (2 ^ 28) with g4 | g4
  · have hv : specStepLen128 w = 4 := by
      unfold specStepLen128
      rw [branch_neg (by omega), branch_neg (by omega), branch_neg (by omega), branch_pos (by omega)]
    rw [hv]
    omega
  rcases Nat.lt_or_ge w (2 ^ 32) with g5 | g5
  · have hv : specStepLen128 w = 5 := by
      unfold specStepLen128
      rw [branch_neg (by omega), branch_neg (by omega), branch_neg (by omega), branch_neg (by omega), branch_pos (by omega)]
    rw [hv]
    omega
  rcases Nat.lt_or_ge w (2 ^ 40) with g6 | g6
  · have hv : specStepLen128 w = 6 := by
      unfold specStepLen128
      rw [branch_neg (by omega), branch_neg (by omega), branch_neg (by omega), branch_neg (by omega), branch_neg (by omega), branch_pos (by omega)]
    rw [hv]
    omega
  rcases Nat.lt_or_ge w (2 ^ 48) with g7 | g7
  · have hv : specStepLen128 w = 7 := by
      unfold specStepLen128
      rw [branch_neg (by omega), branch_neg (by omega), branch_neg (by omega), branch_neg (by omega), branch_neg (by omega), branch_neg (by omega), branch_pos (by omega)]
    rw [hv]
    omega
  rcases Nat.lt_or_ge w (2 ^ 56) with g8 | g8
  · have hv : specStepLen128 w = 8 := by
      unfold specStepLen128
      rw [branch_neg (by omega), branch_neg (by omega), branch_neg (by omega), branch_neg (by omega), branch_neg (by omega), branch_neg (by omega), branch_neg (by omega), branch_pos (by omega)]
    rw [hv]
    omega
  rcases Nat.lt_or_ge w (2 ^ 64) with g9 | g9
  · have hv : specStepLen128 w = 9 := by
      unfold specStepLen128
      rw [branch_neg (by omega), branch_neg (by omega), branch_neg (by omega), branch_neg (by omega), branch_neg (by omega), branch_neg (by omega), branch_neg (by omega), branch_neg (by omega), branch_pos (by omega)]
    rw [hv]
    omega
  rcases Nat.lt_or_ge w (2 ^ 72) with g10 | g10
  · have hv : specStepLen128 w = 10 := by
      unfold specStepLen128
      rw [branch_neg (by omega), branch_neg (by omega), branch_neg (by omega), branch_neg (by omega), branch_neg (by omega), branch_neg (by omega), branch_neg (by omega), branch_neg (by omega), branch_neg (by omega), branch_pos (by omega)]
    rw [hv]
    omega
  rcases Nat.lt_or_ge w (2 ^ 80) with g11 | g11
  · have hv : specStepLen128 w = 11 := by
      unfold specStepLen128
      rw [branch_neg (by omega), branch_neg (by omega), branch_neg (by omega), branch_neg (by omega), branch_neg (by omega), branch_neg (by omega), branch_neg (by omega), branch_neg (by omega), branch_neg (by omega), branch_neg (by omega), branch_pos (by omega)]
    rw [hv]
    omega
  rcases Nat.lt_or_ge w (2 ^ 88) with g12 | g12
  · have hv : specStepLen128 w = 12 := by
      unfold specStepLen128
      rw [branch_neg (by omega), branch_neg (by omega), branch_neg (by omega), branch_neg (by omega), branch_neg (by omega), branch_neg (by omega), branch_neg (by omega), branch_neg (by omega), branch_neg (by omega), branch_neg (by omega), branch_neg (by omega), branch_pos (by omega)]
    rw [hv]
    omega
  rcases Nat.lt_or_ge w (2 ^ 96) with g13 | g13
  · have hv : specStepLen128 w = 13 := by
      unfold specStepLen128
      rw [branch_neg (by omega), branch_neg (by omega), branch_neg (by omega), branch_neg (by omega), branch_neg (by omega), branch_neg (by omega), branch_neg (by omega), branch_neg (by omega), branch_neg (by omega), branch_neg (by omega), branch_neg (by omega), branch_neg (by omega), branch_pos (by omega)]
    rw [hv]
    omega
  rcases Nat.lt_or_ge w (2 ^ 104) with g14 | g14
  · have hv : specStepLen128 w = 14 := by
      unfold specStepLen128
      rw [branch_neg (by omega), branch_neg (by omega), branch_neg (by omega), branch_neg (by omega), branch_neg (by omega), branch_neg (by omega), branch_neg (by omega), branch_neg (by omega), branch_neg (by omega), branch_neg (by omega), branch_neg (by omega), branch_neg (by omega), branch_neg (by omega), branch_pos (by omega)]
    rw [hv]
    omega
  rcases Nat.lt_or_ge w (2 ^ 112) with g15 | g15
  · have hv : specStepLen128 w = 15 := by
      unfold specStepLen128
      rw [branch_neg (by omega), branch_neg (by omega), branch_neg (by omega), branch_neg (by omega), branch_neg (by omega), branch_neg (by omega), branch_neg (by omega), branch_neg (by omega), branch_neg (by omega), branch_neg (by omega), branch_neg (by omega), branch_neg (by omega), branch_neg (by omega), branch_neg (by omega), branch_pos (by omega)]
    rw [hv]
    omega
  rcases Nat.lt_or_ge w (2 ^ 120) with g16 | g16
  · have hv : specStepLen128 w = 16 := by
      unfold specStepLen128
      rw [branch_neg (by omega), branch_neg (by omega), branch_neg (by omega), branch_neg (by omega), branch_neg (by omega), branch_neg (by omega), branch_neg (by omega), branch_neg (by omega), branch_neg (by omega), branch_neg (by omega), branch_neg (by omega), branch_neg (by omega), branch_neg (by omega), branch_neg (by omega), branch_neg (by omega), branch_pos (by omega)]
    rw [hv]
    omega
  · have hv : specStepLen128 w = 17 := by
      unfold specStepLen128
      rw [branch_neg (by omega), branch_neg (by omega), branch_neg (by omega), branch_neg (by omega), branch_neg (by omega), branch_neg (by omega), branch_neg (by omega), branch_neg (by omega), branch_neg (by omega), branch_neg (by omega), branch_neg (by omega), branch_neg (by omega), branch_neg (by omega), branch_neg (by omega), branch_neg (by omega), branch_neg (by omega)]
    rw [hv]
    omega

theorem specStepLen128_mono (v w : Nat) (h : v ≤ w) : specStepLen128 v ≤ specStepLen128 w := by
  obtain ⟨l0, l1, l2, l3, l4, l5, l6, l7, l8, l9, l10, l11, l12, l13, l14, l15, l16⟩ := specStepLen128_lb w
  rcases Nat.lt_or_ge v (2 ^ 7) with g1 | g1
  · have hv : specStepLen128 v = 1 := by
      unfold specStepLen128
      rw [branch_pos (by omega)]
    rw [hv]
    omega
  rcases Nat.lt_or_ge v (2 ^ 14) with g2 | g2
  · have hv : specStepLen128 v = 2 := by
      unfold specStepLen128
      rw [branch_neg (by omega), branch_pos (by omega)]
    rw [hv]
    have := l1 (by omega)
    omega
  rcases Nat.lt_or_ge v (2 ^ 21) with g3 | g3
  · have hv : specStepLen128 v = 3 := by
      unfold specStepLen128
      rw [branch_neg (by omega), branch_neg (by omega), branch_pos (by omega)]
    rw [hv]
    have := l2 (by omega)
    omega
  rcases Nat.lt_or_ge v (2 ^ 28) with g4 | g4
  · have hv : specStepLen128 v = 4 := by
      unfold specStepLen128
      rw [branch_neg (by omega), branch_neg (by omega), branch_neg (by omega), branch_pos (by omega)]
    rw [hv]
    have := l3 (by omega)
    omega
  rcases Nat.lt_or_ge v (2 ^ 32) with g5 | g5
  · have hv : specStepLen128 v = 5 := by
      unfold specStepLen128
      rw [branch_neg (by omega), branch_neg (by omega), branch_neg (by omega), branch_neg (by omega), branch_pos (by omega)]
    rw [hv]
    have := l4 (by omega)
    omega
  rcases Nat.lt_or_ge v (2 ^ 40) with g6 | g6
  · have hv : specStepLen128 v = 6 := by
      unfold specStepLen128
      rw [branch_neg (by omega), branch_neg (by omega), branch_neg (by omega), branch_neg (by omega), branch_neg (by omega), branch_pos (by omega)]
    rw [hv]
    have := l5 (by omega)
    omega
  rcases Nat.lt_or_ge v (2 ^ 48) with g7 | g7
  · have hv : specStepLen128 v = 7 := by
      unfold specStepLen128
      rw [branch_neg (by omega), branch_neg (by omega), branch_neg (by omega), branch_neg (by omega), branch_neg (by omega), branch_neg (by omega), branch_pos (by omega)]
    rw [hv]
    have := l6 (by omega)
    omega
  rcases Nat.lt_or_ge v (2 ^ 56) with g8 | g8
  · have hv : specStepLen128 v = 8 := by
      unfold specStepLen128
      rw [branch_neg (by omega), branch_neg (by omega), branch_neg (by omega), branch_neg (by omega), branch_neg (by omega), branch_neg (by omega), branch_neg (by omega), branch_pos (by omega)]
    rw [hv]
    have := l7 (by omega)
    omega
  rcases Nat.lt_or_ge v (2 ^ 64) with g9 | g9
  · have hv : specStepLen128 v = 9 := by
      unfold specStepLen128
      rw [branch_neg (by omega), branch_neg (by omega), branch_neg (by omega), branch_neg (by omega), branch_neg (by omega), branch_neg (by omega), branch_neg (by omega), branch_neg (by omega), branch_pos (by omega)]
    rw [hv]
    have := l8 (by omega)
    omega
  rcases Nat.lt_or_ge v (2 ^ 72) with g10 | g10
  · have hv : specStepLen128 v = 10 := by
      unfold specStepLen128
      rw [branch_neg (by omega), branch_neg (by omega), branch_neg (by omega), branch_neg (by omega), branch_neg (by omega), branch_neg (by omega), branch_neg (by omega), branch_neg (by omega), branch_neg (by omega), branch_pos (by omega)]
    rw [hv]
    have := l9 (by omega)
    omega
  rcases Nat.lt_or_ge v (2 ^ 80) with g11 | g11
  · have hv : specStepLen128 v = 11 := by
      unfold specStepLen128
      rw [branch_neg (by omega), branch_neg (by omega), branch_neg (by omega), branch_neg (by omega), branch_neg (by omega), branch_neg (by omega), branch_neg (by omega), branch_neg (by omega), branch_neg (by omega), branch_neg (by omega), branch_pos (by omega)]
    rw [hv]
    have := l10 (by omega)
    omega
  rcases Nat.lt_or_ge v (2 ^ 88) with g12 | g12
  · have hv : specStepLen128 v = 12 := by
      unfold specStepLen128
      rw [branch_neg (by omega), branch_neg (by omega), branch_neg (by omega), branch_neg (by omega), branch_neg (by omega), branch_neg (by omega), branch_neg (by omega), branch_neg (by omega), branch_neg (by omega), branch_neg (by omega), branch_neg (by omega), branch_pos (by omega)]
    rw [hv]
    have := l11 (by omega)
    omega
  rcases Nat.lt_or_ge v (2 ^ 96) with g13 | g13
  · have hv : specStepLen128 v = 13 := by
      unfold specStepLen128
      rw [branch_neg (by omega), branch_neg (by omega), branch_neg (by omega), branch_neg (by omega), branch_neg (by omega), branch_neg (by omega), branch_neg (by omega), branch_neg (by omega), branch_neg (by omega), branch_neg (by omega), branch_neg (by omega), branch_neg (by omega), branch_pos (by omega)]
    rw [hv]
    have := l12 (by omega)
    omega
  rcases Nat.lt_or_ge v (2 ^ 104) with g14 | g14
  · have hv : specStepLen128 v = 14 := by
      unfold specStepLen128
      rw [branch_neg (by omega), branch_neg (by omega), branch_neg (by omega), branch_neg (by omega), branch_neg (by omega), branch_neg (by omega), branch_neg (by omega), branch_neg (by omega), branch_neg (by omega), branch_neg (by omega), branch_neg (by omega), branch_neg (by omega), branch_neg (by omega), branch_pos (by omega)]
    rw [hv]
    have := l13 (by omega)
    omega
  rcases Nat.lt_or_ge v (2 ^ 112) with g15 | g15
  · have hv : specStepLen128 v = 15 := by
      unfold specStepLen128
      rw [branch_neg (by omega), branch_neg (by omega), branch_neg (by omega), branch_neg (by omega), branch_neg (by omega), branch_neg (by omega), branch_neg (by omega), branch_neg (by omega), branch_neg (by omega), branch_neg (by omega), branch_neg (by omega), branch_neg (by omega), branch_neg (by omega), branch_neg (by omega), branch_pos (by omega)]
    rw [hv]
    have := l14 (by omega)
    omega
  rcases Nat.lt_or_ge v (2 ^ 120) with g16 | g16
  · have hv : specStepLen128 v = 16 := by
      unfold specStepLen128
      rw [branch_neg (by omega), branch_neg (by omega), branch_neg (by omega), branch_neg (by omega), branch_neg (by omega), branch_neg (by omega), branch_neg (by omega), branch_neg (by omega), branch_neg (by omega), branch_neg (by omega), branch_neg (by omega), branch_neg (by omega), branch_neg (by omega), branch_neg (by omega), branch_neg (by omega), branch_pos (by omega)]
    rw [hv]
    have := l15 (by omega)
    omega
  · have hv : specStepLen128 v = 17 := by
      unfold specStepLen128
      rw [branch_neg (by omega), branch_neg (by omega), branch_neg (by omega), branch_neg (by omega), branch_neg (by omega), branch_neg (by omega), branch_neg (by omega), branch_neg (by omega), branch_neg (by omega), branch_neg (by omega), branch_neg (by omega), branch_neg (by omega), branch_neg (by omega), branch_neg (by omega), branch_neg (by omega), branch_neg (by omega)]
    rw [hv]
    have := l16 (by omega)
    omega
theorem specStepLen32_bounds (v : Nat) : 1 ≤ specStepLen32 v ∧ specStepLen32 v ≤ 5 := by
  rcases Nat.lt_or_ge v (2 ^ 7) with g1 | g1
  · have hv : specStepLen32 v = 1 := by
      unfold specStepLen32
      rw [branch_pos (by omega)]
    rw [hv]
    omega
  rcases Nat.lt_or_ge v (2 ^ 14) with g2 | g2
  · have hv : specStepLen32 v = 2 := by
      unfold specStepLen32
      rw [branch_neg (by omega), branch_pos (by omega)]
    rw [hv]
    omega
  rcases Nat.lt_or_ge v (2 ^ 21) with g3 | g3
  · have hv : specStepLen32 v = 3 := by
      unfold specStepLen32
      rw [branch_neg (by omega), branch_neg (by omega), branch_pos (by omega)]
    rw [hv]
    omega
  rcases Nat.lt_or_ge v (2 ^ 28) with g4 | g4
  · have hv : specStepLen32 v = 4 := by
      unfold specStepLen32
      rw [branch_neg (by omega), branch_neg (by omega), branch_neg (by omega), branch_pos (by omega)]
    rw [hv]
    omega
  · have hv : specStepLen32 v = 5 := by
      unfold specStepLen32
      rw [branch_neg (by omega), branch_neg (by omega), branch_neg (by omega), branch_neg (by omega)]
    rw [hv]
    omega
theorem specStepLen64_bounds (v : Nat) : 1 ≤ specStepLen64 v ∧ specStepLen64 v ≤ 9 := by
  rcases Nat.lt_or_ge v (2 ^ 7) with g1 | g1
  · have hv : specStepLen64 v = 1 := by
      unfold specStepLen64
      rw [branch_pos (by omega)]
    rw [hv]
    omega
  rcases Nat.lt_or_ge v (2 ^ 14) with g2 | g2
  · have hv : specStepLen64 v = 2 := by
      unfold specStepLen64
      rw [branch_neg (by omega), branch_pos (by omega)]
    rw [hv]
    omega
  rcases Nat.lt_or_ge v (2 ^ 21) with g3 | g3
  · have hv : specStepLen64 v = 3 := by
      unfold specStepLen64
      rw [branch_neg (by omega), branch_neg (by omega), branch_pos (by omega)]
    rw [hv]
    omega
  rcases Nat.lt_or_ge v (2 ^ 28) with g4 | g4
  · have hv : specStepLen64 v = 4 := by
      unfold specStepLen64
      rw [branch_neg (by omega), branch_neg (by omega), branch_neg (by omega), branch_pos (by omega)]
    rw [hv]
    omega
  rcases Nat.lt_or_ge v (2 ^ 32) with g5 | g5
  · have hv : specStepLen64 v = 5 := by
      unfold specStepLen64
      rw [branch_neg (by omega), branch_neg (by omega), branch_neg (by omega), branch_neg (by omega), branch_pos (by omega)]
    rw [hv]
    omega
  rcases Nat.lt_or_ge v (2 ^ 40) with g6 | g6
  · have hv : specStepLen64 v = 6 := by
      unfold specStepLen64
      rw [branch_neg (by omega), branch_neg (by omega), branch_neg (by omega), branch_neg (by omega), branch_neg (by omega), branch_pos (by omega)]
    rw [hv]
    omega
  rcases Nat.lt_or_ge v (2 ^ 48) with g7 | g7
  · have hv : specStepLen64 v = 7 := by
      unfold specStepLen64
      rw [branch_neg (by omega), branch_neg (by omega), branch_neg (by omega), branch_neg (by omega), branch_neg (by omega), branch_neg (by omega), branch_pos (by omega)]
    rw [hv]
    omega
  rcases Nat.lt_or_ge v (2 ^ 56) with g8 | g8
  · have hv : specStepLen64 v = 8 := by
      unfold specStepLen64
      rw [branch_neg (by omega), branch_neg (by omega), branch_neg (by omega), branch_neg (by omega), branch_neg (by omega), branch_neg (by omega), branch_neg (by omega), branch_pos (by omega)]
    rw [hv]
    omega
  · have hv : specStepLen64 v = 9 := by
      unfold specStepLen64
      rw [branch_neg (by omega), branch_neg (by omega), branch_neg (by omega), branch_neg (by omega), branch_neg (by omega), branch_neg (by omega), branch_neg (by omega), branch_neg (by omega)]
    rw [hv]
    omega
theorem specStepLen128_bounds (v : Nat) : 1 ≤ specStepLen128 v ∧ specStepLen128 v ≤ 17 := by
  rcases Nat.lt_or_ge v (2 ^ 7) with g1 | g1
  · have hv : specStepLen128 v = 1 := by
      unfold specStepLen128
      rw [branch_pos (by omega)]
    rw [hv]
    omega
  rcases Nat.lt_or_ge v (2 ^ 14) with g2 | g2
  · have hv : specStepLen128 v = 2 := by
      unfold specStepLen128
      rw [branch_neg (by omega), branch_pos (by omega)]
    rw [hv]
    omega
  rcases Nat.lt_or_ge v (2 ^ 21) with g3 | g3
  · have hv : specStepLen128 v = 3 := by
      unfold specStepLen128
      rw [branch_neg (by omega), branch_neg (by omega), branch_pos (by omega)]
    rw [hv]
    omega
  rcases Nat.lt_or_ge v (2 ^ 28) with g4 | g4
  · have hv : specStepLen128 v = 4 := by
      unfold specStepLen128
      rw [branch_neg (by omega), branch_neg (by omega), branch_neg (by omega), branch_pos (by omega)]
    rw [hv]
    omega
  rcases Nat.lt_or_ge v (2 ^ 32) with g5 | g5
  · have hv : specStepLen128 v = 5 := by
      unfold specStepLen128
      rw [branch_neg (by omega), branch_neg (by omega), branch_neg (by omega), branch_neg (by omega), branch_pos (by omega)]
    rw [hv]
    omega
  rcases Nat.lt_or_ge v (2 ^ 40) with g6 | g6
  · have hv : specStepLen128 v = 6 := by
      unfold specStepLen128
      rw [branch_neg (by omega), branch_neg (by omega), branch_neg (by omega), branch_neg (by omega), branch_neg (by omega), branch_pos (by omega)]
    rw [hv]
    omega
  rcases Nat.lt_or_ge v (2 ^ 48) with g7 | g7
  · have hv : specStepLen128 v = 7 := by
      unfold specStepLen128
      rw [branch_neg (by omega), branch_neg (by omega), branch_neg (by omega), branch_neg (by omega), branch_neg (by omega), branch_neg (by omega), branch_pos (by omega)]
    rw [hv]
    omega
  rcases Nat.lt_or_ge v (2 ^ 56) with g8 | g8
  · have hv : specStepLen128 v = 8 := by
      unfold specStepLen128
      rw [branch_neg (by omega), branch_neg (by omega), branch_neg (by omega), branch_neg (by omega), branch_neg (by omega), branch_neg (by omega), branch_neg (by omega), branch_pos (by omega)]
    rw [hv]
    omega
  rcases Nat.lt_or_ge v (2 ^ 64) with g9 | g9
  · have hv : specStepLen128 v = 9 := by
      unfold specStepLen128
      rw [branch_neg (by omega), branch_neg (by omega), branch_neg (by omega), branch_neg (by omega), branch_neg (by omega), branch_neg (by omega), branch_neg (by omega), branch_neg (by omega), branch_pos (by omega)]
    rw [hv]
    omega
  rcases Nat.lt_or_ge v (2 ^ 72) with g10 | g10
  · have hv : specStepLen128 v = 10 := by
      unfold specStepLen128
      rw [branch_neg (by omega), branch_neg (by omega), branch_neg (by omega), branch_neg (by omega), branch_neg (by omega), branch_neg (by omega), branch_neg (by omega), branch_neg (by omega), branch_neg (by omega), branch_pos (by omega)]
    rw [hv]
    omega
  rcases Nat.lt_or_ge v (2 ^ 80) with g11 | g11
  · have hv : specStepLen128 v = 11 := by
      unfold specStepLen128
      rw [branch_neg (by omega), branch_neg (by omega), branch_neg (by omega), branch_neg (by omega), branch_neg (by omega), branch_neg (by omega), branch_neg (by omega), branch_neg (by omega), branch_neg (by omega), branch_neg (by omega), branch_pos (by omega)]
    rw [hv]
    omega
  rcases Nat.lt_or_ge v (2 ^ 88) with g12 | g12
  · have hv : specStepLen128 v = 12 := by
      unfold specStepLen128
      rw [branch_neg (by omega), branch_neg (by omega), branch_neg (by omega), branch_neg (by omega), branch_neg (by omega), branch_neg (by omega), branch_neg (by omega), branch_neg (by omega), branch_neg (by omega), branch_neg (by omega), branch_neg (by omega), branch_pos (by omega)]
    rw [hv]
    omega
  rcases Nat.lt_or_ge v (2 ^ 96) with g13 | g13
  · have hv : specStepLen128 v = 13 := by
      unfold specStepLen128
      rw [branch_neg (by omega), branch_neg (by omega), branch_neg (by omega), branch_neg (by omega), branch_neg (by omega), branch_neg (by omega), branch_neg (by omega), branch_neg (by omega), branch_neg (by omega), branch_neg (by omega), branch_neg (by omega), branch_neg (by omega), branch_pos (by omega)]
    rw [hv]
    omega
  rcases Nat.lt_or_ge v (2 ^ 104) with g14 | g14
  · have hv : specStepLen128 v = 14 := by
      unfold specStepLen128
      rw [branch_neg (by omega), branch_neg (by omega), branch_neg (by omega), branch_neg (by omega), branch_neg (by omega), branch_neg (by omega), branch_neg (by omega), branch_neg (by omega), branch_neg (by omega), branch_neg (by omega), branch_neg (by omega), branch_neg (by omega), branch_neg (by omega), branch_pos (by omega)]
    rw [hv]
    omega
  rcases Nat.lt_or_ge v (2 ^ 112) with g15 | g15
  · have hv : specStepLen128 v = 15 := by
      unfold specStepLen128
      rw [branch_neg (by omega), branch_neg (by omega), branch_neg (by omega), branch_neg (by omega), branch_neg (by omega), branch_neg (by omega), branch_neg (by omega), branch_neg (by omega), branch_neg (by omega), branch_neg (by omega), branch_neg (by omega), branch_neg (by omega), branch_neg (by omega), branch_neg (by omega), branch_pos (by omega)]
    rw [hv]
    omega
  rcases Nat.lt_or_ge v (2 ^ 120) with g16 | g16
  · have hv : specStepLen128 v = 16 := by
      unfold specStepLen128
      rw [branch_neg (by omega), branch_neg (by omega), branch_neg (by omega), branch_neg (by omega), branch_neg (by omega), branch_neg (by omega), branch_neg (by omega), branch_neg (by omega), branch_neg (by omega), branch_neg (by omega), branch_neg (by omega), branch_neg (by omega), branch_neg (by omega), branch_neg (by omega), branch_neg (by omega), branch_pos (by omega)]
    rw [hv]
    omega
  · have hv : specStepLen128 v = 17 := by
      unfold specStepLen128
      rw [branch_neg (by omega), branch_neg (by omega), branch_neg (by omega), branch_neg (by omega), branch_neg (by omega), branch_neg (by omega), branch_neg (by omega), branch_neg (by omega), branch_neg (by omega), branch_neg (by omega), branch_neg (by omega), branch_neg (by omega), branch_neg (by omega), branch_neg (by omega), branch_neg (by omega), branch_neg (by omega)]
    rw [hv]
    omega
/-! ### Decoded length agrees with `encoded_len`, for arbitrary buffers -/

theorem decode_u32_len (buf : Buf) (h : buf 0 < 256) :
    (decode_u32 buf).2 = encoded_len (buf 0) := by
  rcases lt_or_ge (buf 0) 0x80 with h1 | h1
  · rw [decode_u32_case1 _ h1]
    simp only [encoded_len]
    rw [branch_pos (by omega)]
  rcases lt_or_ge (buf 0) 0xC0 with h2 | h2
  · rw [decode_u32_case2 _ h1 h2]
    simp only [encoded_len]
    rw [branch_neg (by omega), branch_pos (by omega)]
  rcases lt_or_ge (buf 0) 0xE0 with h3 | h3
  · rw [decode_u32_case3 _ h2 h3]
    simp only [encoded_len]
    rw [branch_neg (by omega), branch_neg (by omega), branch_pos (by omega)]
  rcases lt_or_ge (buf 0) 0xF0 with h4 | h4
  · rw [decode_u32_case4 _ h3 h4]
    simp only [encoded_len]
    rw [branch_neg (by omega), branch_neg (by omega), branch_neg (by omega), branch_pos (by omega)]
  · rw [decode_u32_caseF _ h4 h]
    simp only [encoded_len]
    rw [branch_neg (by omega), branch_neg (by omega), branch_neg (by omega), branch_neg (by omega)]

theorem decode_u64_len (buf : Buf) (h : buf 0 < 256) :
    (decode_u64 buf).2 = encoded_len (buf 0) := by
  rcases lt_or_ge (buf 0) 0x80 with h1 | h1
  · rw [decode_u64_case1 _ h1]
    simp only [encoded_len]
    rw [branch_pos (by omega)]
  rcases lt_or_ge (buf 0) 0xC0 with h2 | h2
  · rw [decode_u64_case2 _ h1 h2]
    simp only [encoded_len]
    rw [branch_neg (by omega), branch_pos (by omega)]
  rcases lt_or_ge (buf 0) 0xE0 with h3 | h3
  · rw [decode_u64_case3 _ h2 h3]
    simp only [encoded_len]
    rw [branch_neg (by omega), branch_neg (by omega), branch_pos (by omega)]
  rcases lt_or_ge (buf 0) 0xF0 with h4 | h4
  · rw [decode_u64_case4 _ h3 h4]
    simp only [encoded_len]
    rw [branch_neg (by omega), branch_neg (by omega), branch_neg (by omega), branch_pos (by omega)]
  · rw [decode_u64_caseF _ h4 h]
    simp only [encoded_len]
    rw [branch_neg (by omega), branch_neg (by omega), branch_neg (by omega), branch_neg (by omega)]

theorem decode_u128_len (buf : Buf) (h : buf 0 < 256) :
    (decode_u128 buf).2 = encoded_len (buf 0) := by
  rcases lt_or_ge (buf 0) 0x80 with h1 | h1
  · rw [decode_u128_case1 _ h1]
    simp only [encoded_len]
    rw [branch_pos (by omega)]
  rcases lt_or_ge (buf 0) 0xF0 with h2 | h2
  · rw [decode_u128_caseMid _ h1 h2]
    exact decode_u32_len buf h
  · rw [decode_u128_caseF _ h2 h]
    simp only [encoded_len]
    rw [branch_neg (by omega), branch_neg (by omega), branch_neg (by omega), branch_neg (by omega)]

/-! ### Totality bounds: every byte pattern decodes to an in-range value -/

theorem decode_u32_bounds (buf : Buf) (h : ∀ i, i < 5 → buf i < 256) :
    (decode_u32 buf).1 < 2 ^ 32 ∧ 1 ≤ (decode_u32 buf).2 ∧ (decode_u32 buf).2 ≤ 17 := by
  have h0 := h 0 (by omega)
  have h1 := h 1 (by omega)
  have h2 := h 2 (by omega)
  have h3 := h 3 (by omega)
  have h4 := h 4 (by omega)
  rcases lt_or_ge (buf 0) 0x80 with hc | hc
  · rw [decode_u32_case1 _ hc]
    exact ⟨by omega, by omega, by omega⟩
  rcases lt_or_ge (buf 0) 0xC0 with hc2 | hc2
  · rw [decode_u32_case2 _ hc hc2]
    refine ⟨?_, by omega, by omega⟩
    rw [and_63, Nat.shiftLeft_eq, or_eq_add_of 6 _ _ (by omega) (by omega)]
    omega
  rcases lt_or_ge (buf 0) 0xE0 with hc3 | hc3
  · rw [decode_u32_case3 _ hc2 hc3]
    refine ⟨?_, by omega, by omega⟩
    rw [and_31]
    simp only [Nat.shiftLeft_eq]
    rw [or_eq_add_of 13 (buf 2 * 2 ^ 13) (buf 1 * 2 ^ 5) (by omega) (by omega),
      or_eq_add_of 5 _ _ (by omega) (by omega)]
    omega
  rcases lt_or_ge (buf 0) 0xF0 with hc4 | hc4
  · rw [decode_u32_case4 _ hc3 hc4]
    refine ⟨?_, by omega, by omega⟩
    rw [and_15]
    simp only [Nat.shiftLeft_eq]
    rw [or_eq_add_of 20 (buf 3 * 2 ^ 20) (buf 2 * 2 ^ 12) (by omega) (by omega),
      or_eq_add_of 12 (buf 3 * 2 ^ 20 + buf 2 * 2 ^ 12) (buf 1 * 2 ^ 4) (by omega) (by omega),
      or_eq_add_of 4 _ _ (by omega) (by omega)]
    omega
  · rw [decode_u32_caseF _ hc4 h0]
    refine ⟨?_, ?_, ?_⟩
    · simp only [Nat.shiftLeft_eq]
      rw [or_eq_add_of 24 (buf 4 * 2 ^ 24) (buf 3 * 2 ^ 16) (by omega) (by omega),
        or_eq_add_of 16 (buf 4 * 2 ^ 24 + buf 3 * 2 ^ 16) (buf 2 * 2 ^ 8) (by omega)
          (by omega),
        or_eq_add_of 8 _ _ (by omega) (by omega)]
      omega
    · omega
    · rw [and_15]
      omega

theorem decode_u64_bounds (buf : Buf) (h : ∀ i, i < 9 → buf i < 256) :
    (decode_u64 buf).1 < 2 ^ 64 ∧ 1 ≤ (decode_u64 buf).2 ∧ (decode_u64 buf).2 ≤ 17 := by
  have h0 := h 0 (by omega)
  have h1 := h 1 (by omega)
  have h2 := h 2 (by omega)
  have h3 := h 3 (by omega)
  rcases lt_or_ge (buf 0) 0x80 with hc | hc
  · rw [decode_u64_case1 _ hc]
    exact ⟨by omega, by omega, by omega⟩
  rcases lt_or_ge (buf 0) 0xC0 with hc2 | hc2
  · rw [decode_u64_case2 _ hc hc2]
    refine ⟨?_, by omega, by omega⟩
    rw [and_63, Nat.shiftLeft_eq, or_eq_add_of 6 _ _ (by omega) (by omega)]
    omega
  rcases lt_or_ge (buf 0) 0xE0 with hc3 | hc3
  · rw [decode_u64_case3 _ hc2 hc3]
    refine ⟨?_, by omega, by omega⟩
    rw [and_31]
    simp only [Nat.shiftLeft_eq]
    rw [or_eq_add_of 13 (buf 2 * 2 ^ 13) (buf 1 * 2 ^ 5) (by omega) (by omega),
      or_eq_add_of 5 _ _ (by omega) (by omega)]
    omega
  rcases lt_or_ge (buf 0) 0xF0 with hc4 | hc4
  · rw [decode_u64_case4 _ hc3 hc4]
    refine ⟨?_, by omega, by omega⟩
    rw [and_15]
    simp only [Nat.shiftLeft_eq]
    rw [or_eq_add_of 20 (buf 3 * 2 ^ 20) (buf 2 * 2 ^ 12) (by omega) (by omega),
      or_eq_add_of 12 (buf 3 * 2 ^ 20 + buf 2 * 2 ^ 12) (buf 1 * 2 ^ 4) (by omega) (by omega),
      or_eq_add_of 4 _ _ (by omega) (by omega)]
    omega
  · rw [decode_u64_caseF _ hc4 h0]
    have hrd : readLE 8 buf 1 < 256 ^ 8 := by
      apply readLE_lt
      intro j hj
      exact h (1 + j) (by omega)
    have hand : readLE 8 buf 1 &&&
        ((2 ^ 64 - 1) >>> ((((buf 0 &&& 0x0F) &&& 0b111) ^^^ 0b111) * 8)) ≤
        readLE 8 buf 1 := Nat.and_le_left
    have h88 : (256 : Nat) ^ 8 = 2 ^ 64 := by norm_num
    refine ⟨by omega, by omega, ?_⟩
    rw [and_15]
    omega

theorem decode_u128_bounds (buf : Buf) (h : ∀ i, i < 17 → buf i < 256) :
    (decode_u128 buf).1 < 2 ^ 128 ∧ 1 ≤ (decode_u128 buf).2 ∧ (decode_u128 buf).2 ≤ 17 := by
  have h0 := h 0 (by omega)
  rcases lt_or_ge (buf 0) 0x80 with hc | hc
  · rw [decode_u128_case1 _ hc]
    exact ⟨by omega, by omega, by omega⟩
  rcases lt_or_ge (buf 0) 0xF0 with hc2 | hc2
  · rw [decode_u128_caseMid _ hc hc2]
    obtain ⟨hb1, hb2, hb3⟩ := decode_u32_bounds buf (fun i hi => h i (by omega))
    exact ⟨by omega, hb2, hb3⟩
  · rw [decode_u128_caseF _ hc2 h0]
    have hrd : readLE 16 buf 1 < 256 ^ 16 := by
      apply readLE_lt
      intro j hj
      exact h (1 + j) (by omega)
    have hand : readLE 16 buf 1 &&&
        ((2 ^ 128 - 1) >>> ((((buf 0 &&& 0x0F) &&& 0b1111) ^^^ 0b1111) * 8)) ≤
        readLE 16 buf 1 := Nat.and_le_left
    have h816 : (256 : Nat) ^ 16 = 2 ^ 128 := by norm_num
    refine ⟨by omega, by omega, ?_⟩
    rw [and_15 (buf 0)]
    omega

/-! ### Claim theorems -/

/-- C1: for every value of each supported type (u32, u64, u128, i32, i64,
i128, f32, f64 — floats represented by their IEEE-754 bit patterns),
encoding into a correctly-sized buffer and then decoding returns exactly
`(v, len)`, where `len` is the length returned by the encode call and also
equals `encoded_len` applied to the first encoded byte. -/
theorem C1_round_trip :
    (∀ buf v, v < 2 ^ 32 → decode_u32 (encode_u32 buf v).1 = (v, (encode_u32 buf v).2) ∧
      (encode_u32 buf v).2 = encoded_len ((encode_u32 buf v).1 0)) ∧
    (∀ buf v, v < 2 ^ 64 → decode_u64 (encode_u64 buf v).1 = (v, (encode_u64 buf v).2) ∧
      (encode_u64 buf v).2 = encoded_len ((encode_u64 buf v).1 0)) ∧
    (∀ buf v, v < 2 ^ 128 →
      decode_u128 (encode_u128 buf v).1 = (v, (encode_u128 buf v).2) ∧
      (encode_u128 buf v).2 = encoded_len ((encode_u128 buf v).1 0)) ∧
    (∀ buf (v : Int), -(2 ^ 31) ≤ v → v < 2 ^ 31 →
      decode_i32 (encode_i32 buf v).1 = (v, (encode_i32 buf v).2) ∧
      (encode_i32 buf v).2 = encoded_len ((encode_i32 buf v).1 0)) ∧
    (∀ buf (v : Int), -(2 ^ 63) ≤ v → v < 2 ^ 63 →
      decode_i64 (encode_i64 buf v).1 = (v, (encode_i64 buf v).2) ∧
      (encode_i64 buf v).2 = encoded_len ((encode_i64 buf v).1 0)) ∧
    (∀ buf (v : Int), -(2 ^ 127) ≤ v → v < 2 ^ 127 →
      decode_i128 (encode_i128 buf v).1 = (v, (encode_i128 buf v).2) ∧
      (encode_i128 buf v).2 = encoded_len ((encode_i128 buf v).1 0)) ∧
    (∀ buf bits, bits < 2 ^ 32 →
      decode_f32 (encode_f32 buf bits).1 = (bits, (encode_f32 buf bits).2) ∧
      (encode_f32 buf bits).2 = encoded_len ((encode_f32 buf bits).1 0)) ∧
    (∀ buf bits, bits < 2 ^ 64 →
      decode_f64 (encode_f64 buf bits).1 = (bits, (encode_f64 buf bits).2) ∧
      (encode_f64 buf bits).2 = encoded_len ((encode_f64 buf bits).1 0)) := by
  refine ⟨?_, ?_, ?_, ?_, ?_, ?_, ?_, ?_⟩
  · intro buf v hv
    obtain ⟨h1, h2⟩ := encode_u32_ok buf v hv
    exact ⟨h1, h2.symm⟩
  · intro buf v hv
    obtain ⟨h1, h2⟩ := encode_u64_ok buf v hv
    exact ⟨h1, h2.symm⟩
  · intro buf v hv
    obtain ⟨h1, h2⟩ := encode_u128_ok buf v hv
    exact ⟨h1, h2.symm⟩
  · intro buf v hlo hhi
    obtain ⟨h1, h2⟩ := encode_i32_ok buf v hlo hhi
    exact ⟨h1, h2.symm⟩
  · intro buf v hlo hhi
    obtain ⟨h1, h2⟩ := encode_i64_ok buf v hlo hhi
    exact ⟨h1, h2.symm⟩
  · intro buf v hlo hhi
    obtain ⟨h1, h2⟩ := encode_i128_ok buf v hlo hhi
    exact ⟨h1, h2.symm⟩
  · intro buf bits hb
    obtain ⟨h1, h2⟩ := encode_f32_ok buf bits hb
    exact ⟨h1, h2.symm⟩
  · intro buf bits hb
    obtain ⟨h1, h2⟩ := encode_f64_ok buf bits hb
    exact ⟨h1, h2.symm⟩

/-- Witness for C1 at concrete inputs of all eight types. -/
theorem C1_round_trip_witness :
    (decode_u32 (encode_u32 zbuf 0xABCDE).1 = (0xABCDE, (encode_u32 zbuf 0xABCDE).2) ∧
      (encode_u32 zbuf 0xABCDE).2 = encoded_len ((encode_u32 zbuf 0xABCDE).1 0)) ∧
    (decode_u64 (encode_u64 zbuf 300).1 = (300, (encode_u64 zbuf 300).2) ∧
      (encode_u64 zbuf 300).2 = encoded_len ((encode_u64 zbuf 300).1 0)) ∧
    (decode_u128 (encode_u128 zbuf 77).1 = (77, (encode_u128 zbuf 77).2) ∧
      (encode_u128 zbuf 77).2 = encoded_len ((encode_u128 zbuf 77).1 0)) ∧
    (decode_i32 (encode_i32 zbuf (-5)).1 = (-5, (encode_i32 zbuf (-5)).2) ∧
      (encode_i32 zbuf (-5)).2 = encoded_len ((encode_i32 zbuf (-5)).1 0)) ∧
    (decode_i64 (encode_i64 zbuf 123).1 = (123, (encode_i64 zbuf 123).2) ∧
      (encode_i64 zbuf 123).2 = encoded_len ((encode_i64 zbuf 123).1 0)) ∧
    (decode_i128 (encode_i128 zbuf (-1)).1 = (-1, (encode_i128 zbuf (-1)).2) ∧
      (encode_i128 zbuf (-1)).2 = encoded_len ((encode_i128 zbuf (-1)).1 0)) ∧
    (decode_f32 (encode_f32 zbuf 0x40200000).1 = (0x40200000, (encode_f32 zbuf 0x40200000).2) ∧
      (encode_f32 zbuf 0x40200000).2 = encoded_len ((encode_f32 zbuf 0x40200000).1 0)) ∧
    (decode_f64 (encode_f64 zbuf 0x8000000000000000).1 =
        (0x8000000000000000, (encode_f64 zbuf 0x8000000000000000).2) ∧
      (encode_f64 zbuf 0x8000000000000000).2 =
        encoded_len ((encode_f64 zbuf 0x8000000000000000).1 0)) :=
  ⟨C1_round_trip.1 zbuf 0xABCDE (by norm_num),
   C1_round_trip.2.1 zbuf 300 (by norm_num),
   C1_round_trip.2.2.1 zbuf 77 (by norm_num),
   C1_round_trip.2.2.2.1 zbuf (-5) (by norm_num) (by norm_num),
   C1_round_trip.2.2.2.2.1 zbuf 123 (by norm_num) (by norm_num),
   C1_round_trip.2.2.2.2.2.1 zbuf (-1) (by norm_num) (by norm_num),
   C1_round_trip.2.2.2.2.2.2.1 zbuf 0x40200000 (by norm_num),
   C1_round_trip.2.2.2.2.2.2.2 zbuf 0x8000000000000000 (by norm_num)⟩

/-- C2: the claim asserts that all three decoders mask unread high-order
payload bytes to zero, so that an over-long binary-length-prefixed encoding
decodes to the original value regardless of the bytes beyond the encoding.
`decode_u64` and `decode_u128` do mask (and return `(1, 2)` on the buffer
`[0xF0, 0x01, 0xFF, 0, ...]`), but `decode_u32` reads payload bytes 1..4
unmasked and returns `(0xFF01, 2)` on the same bytes — the failing input. -/
theorem C2_decode_u32_overlong_unmasked :
    decode_u32 overlongBuf = (0xFF01, 2) ∧
    decode_u64 overlongBuf64 = (1, 2) ∧
    decode_u128 overlongBuf64 = (1, 2) ∧
    encoded_len 0xF0 = 2 := by
  refine ⟨?_, ?_, ?_, ?_⟩ <;> decide

/-- C3: `encoded_len` follows the unary/binary prefix table (1 below `0x80`,
2 below `0xC0`, 3 below `0xE0`, 4 below `0xF0`, else `(b &&& 0x0F) + 2`),
and for every buffer the `bytes_consumed` component of `decode_u32`,
`decode_u64` and `decode_u128` equals `encoded_len` of the first byte,
independent of all other buffer contents. -/
theorem C3_length_agreement :
    (∀ b, b < 256 → encoded_len b =
      if b < 0x80 then 1
      else if b < 0xC0 then 2
      else if b < 0xE0 then 3
      else if b < 0xF0 then 4
      else (b &&& 0x0F) + 2) ∧
    (∀ buf : Buf, buf 0 < 256 → (decode_u32 buf).2 = encoded_len (buf 0)) ∧
    (∀ buf : Buf, buf 0 < 256 → (decode_u64 buf).2 = encoded_len (buf 0)) ∧
    (∀ buf : Buf, buf 0 < 256 → (decode_u128 buf).2 = encoded_len (buf 0)) :=
  ⟨fun _ _ => rfl, decode_u32_len, decode_u64_len, decode_u128_len⟩

/-- Witness for C3 at a concrete prefix byte and concrete buffers. -/
theorem C3_length_agreement_witness :
    (encoded_len 0xB9 =
      if (0xB9 : Nat) < 0x80 then 1
      else if (0xB9 : Nat) < 0xC0 then 2
      else if (0xB9 : Nat) < 0xE0 then 3
      else if (0xB9 : Nat) < 0xF0 then 4
      else (0xB9 &&& 0x0F) + 2) ∧
    (decode_u32 overlongBuf).2 = encoded_len (overlongBuf 0) ∧
    (decode_u64 overlongBuf64).2 = encoded_len (overlongBuf64 0) ∧
    (decode_u128 overlongBuf64).2 = encoded_len (overlongBuf64 0) :=
  ⟨C3_length_agreement.1 0xB9 (by norm_num),
   C3_length_agreement.2.1 overlongBuf (by decide),
   C3_length_agreement.2.2.1 overlongBuf64 (by decide),
   C3_length_agreement.2.2.2 overlongBuf64 (by decide)⟩

/-- C4: each signed encoder equals the matching unsigned encoder applied to
the zigzag transform `((v >> (w-1)) as uW) ^^^ ((v << 1) as uW)`, each
signed decoder applies the inverse transform
`((zz >> 1) as iW) ^^^ (-((zz &&& 1) as iW))` to the decoded unsigned
value, and on the whole signed range the zigzag map sends `v ≥ 0` to `2v`
and `v < 0` to `2|v| - 1` (so `0, -1, 1, -2, 2, ...` maps to
`0, 1, 2, 3, 4, ...`) with the inverse transform undoing it. -/
theorem C4_zigzag_adapter :
    (∀ buf v, encode_i32 buf v = encode_u32 buf (zigzag 32 v)) ∧
    (∀ buf v, encode_i64 buf v = encode_u64 buf (zigzag 64 v)) ∧
    (∀ buf v, encode_i128 buf v = encode_u128 buf (zigzag 128 v)) ∧
    (∀ buf, decode_i32 buf = (unzigzag 32 (decode_u32 buf).1, (decode_u32 buf).2)) ∧
    (∀ buf, decode_i64 buf = (unzigzag 64 (decode_u64 buf).1, (decode_u64 buf).2)) ∧
    (∀ buf, decode_i128 buf = (unzigzag 128 (decode_u128 buf).1, (decode_u128 buf).2)) ∧
    (∀ w : Nat, 2 ≤ w → ∀ v : Int, -((2 : Int) ^ (w - 1)) ≤ v → v < (2 : Int) ^ (w - 1) →
      zigzag w v = (if 0 ≤ v then (2 * v).toNat else (-(2 * v) - 1).toNat) ∧
      unzigzag w (zigzag w v) = v) := by
  refine ⟨fun _ _ => rfl, fun _ _ => rfl, fun _ _ => rfl, fun _ => rfl, fun _ => rfl,
    fun _ => rfl, ?_⟩
  intro w hw v hlo hhi
  exact ⟨zigzag_eq w v hw hlo hhi, unzigzag_zigzag w v hw hlo hhi⟩

/-- Witness for C4 at width 32 and concrete values. -/
theorem C4_zigzag_adapter_witness :
    encode_i32 zbuf (-3) = encode_u32 zbuf (zigzag 32 (-3)) ∧
    decode_i32 zbuf = (unzigzag 32 (decode_u32 zbuf).1, (decode_u32 zbuf).2) ∧
    (zigzag 32 (-3) = (if (0 : Int) ≤ -3 then (2 * (-3 : Int)).toNat
        else (-(2 * (-3 : Int)) - 1).toNat) ∧
      unzigzag 32 (zigzag 32 (-3)) = -3) :=
  ⟨C4_zigzag_adapter.1 zbuf (-3),
   C4_zigzag_adapter.2.2.2.1 zbuf,
   C4_zigzag_adapter.2.2.2.2.2.2 32 (by norm_num) (-3) (by norm_num) (by norm_num)⟩

/-- C5: `encode_f32`/`encode_f64` equal the matching-width unsigned encoder
applied to the byte-swapped IEEE-754 bit pattern, `decode_f32`/`decode_f64`
invert this exactly, every 32/64-bit pattern (including every NaN payload
and signed zero) round-trips bit-exactly, and encoding the pattern of `2.5`
(`0x40200000`) writes `[0x80, 0x81]` with length 2, which decodes back to
`(0x40200000, 2)`. -/
theorem C5_float_adapter :
    (∀ buf bits, encode_f32 buf bits = encode_u32 buf (swapBytes32 bits)) ∧
    (∀ buf bits, encode_f64 buf bits = encode_u64 buf (swapBytes64 bits)) ∧
    (∀ buf, decode_f32 buf = (swapBytes32 (decode_u32 buf).1, (decode_u32 buf).2)) ∧
    (∀ buf, decode_f64 buf = (swapBytes64 (decode_u64 buf).1, (decode_u64 buf).2)) ∧
    (∀ buf bits, bits < 2 ^ 32 →
      decode_f32 (encode_f32 buf bits).1 = (bits, (encode_f32 buf bits).2)) ∧
    (∀ buf bits, bits < 2 ^ 64 →
      decode_f64 (encode_f64 buf bits).1 = (bits, (encode_f64 buf bits).2)) ∧
    ((encode_f32 zbuf 0x40200000).1 0 = 0x80 ∧ (encode_f32 zbuf 0x40200000).1 1 = 0x81 ∧
      (encode_f32 zbuf 0x40200000).2 = 2 ∧
      decode_f32 (encode_f32 zbuf 0x40200000).1 = (0x40200000, 2)) := by
  refine ⟨fun _ _ => rfl, fun _ _ => rfl, fun _ => rfl, fun _ => rfl, ?_, ?_,
    ?_, ?_, ?_, ?_⟩
  · intro buf bits hb
    exact (encode_f32_ok buf bits hb).1
  · intro buf bits hb
    exact (encode_f64_ok buf bits hb).1
  · decide
  · decide
  · decide
  · decide

/-- Witness for C5 at the bit pattern of `2.5` and of `-0.0`. -/
theorem C5_float_adapter_witness :
    decode_f32 (encode_f32 zbuf 0x40200000).1 = (0x40200000, (encode_f32 zbuf 0x40200000).2) ∧
    decode_f64 (encode_f64 zbuf 0x8000000000000000).1 =
      (0x8000000000000000, (encode_f64 zbuf 0x8000000000000000).2) :=
  ⟨C5_float_adapter.2.2.2.2.1 zbuf 0x40200000 (by norm_num),
   C5_float_adapter.2.2.2.2.2.1 zbuf 0x8000000000000000 (by norm_num)⟩

/-- C6: every encoder is a total function returning a length between 1 and
the buffer size, and every decoder returns, for every byte pattern in a
correctly-sized buffer, a value within the target type's range and a
positive length — no failure branch or partiality anywhere. -/
theorem C6_totality :
    (∀ buf v, v < 2 ^ 32 → 1 ≤ (encode_u32 buf v).2 ∧ (encode_u32 buf v).2 ≤ 5) ∧
    (∀ buf v, v < 2 ^ 64 → 1 ≤ (encode_u64 buf v).2 ∧ (encode_u64 buf v).2 ≤ 9) ∧
    (∀ buf v, v < 2 ^ 128 → 1 ≤ (encode_u128 buf v).2 ∧ (encode_u128 buf v).2 ≤ 17) ∧
    (∀ buf : Buf, (∀ i, i < 5 → buf i < 256) → (decode_u32 buf).1 < 2 ^ 32 ∧
      1 ≤ (decode_u32 buf).2 ∧ (decode_u32 buf).2 ≤ 17) ∧
    (∀ buf : Buf, (∀ i, i < 9 → buf i < 256) → (decode_u64 buf).1 < 2 ^ 64 ∧
      1 ≤ (decode_u64 buf).2 ∧ (decode_u64 buf).2 ≤ 17) ∧
    (∀ buf : Buf, (∀ i, i < 17 → buf i < 256) → (decode_u128 buf).1 < 2 ^ 128 ∧
      1 ≤ (decode_u128 buf).2 ∧ (decode_u128 buf).2 ≤ 17) := by
  refine ⟨?_, ?_, ?_, decode_u32_bounds, decode_u64_bounds, decode_u128_bounds⟩
  · intro buf v _
    rw [encode_u32_len]
    exact specStepLen32_bounds v
  · intro buf v hv
    rw [encode_u64_len buf v hv]
    exact specStepLen64_bounds v
  · intro buf v hv
    rw [encode_u128_len buf v hv]
    exact specStepLen128_bounds v

/-- Witness for C6 at a concrete value and a concrete all-zero buffer. -/
theorem C6_totality_witness :
    (1 ≤ (encode_u128 zbuf 123456789).2 ∧ (encode_u128 zbuf 123456789).2 ≤ 17) ∧
    ((decode_u32 overlongBuf).1 < 2 ^ 32 ∧ 1 ≤ (decode_u32 overlongBuf).2 ∧
      (decode_u32 overlongBuf).2 ≤ 17) ∧
    ((decode_u64 overlongBuf64).1 < 2 ^ 64 ∧ 1 ≤ (decode_u64 overlongBuf64).2 ∧
      (decode_u64 overlongBuf64).2 ≤ 17) ∧
    ((decode_u128 overlongBuf64).1 < 2 ^ 128 ∧ 1 ≤ (decode_u128 overlongBuf64).2 ∧
      (decode_u128 overlongBuf64).2 ≤ 17) :=
  ⟨C6_totality.2.2.1 zbuf 123456789 (by norm_num),
   C6_totality.2.2.2.1 overlongBuf (by decide),
   C6_totality.2.2.2.2.1 overlongBuf64 (by decide),
   C6_totality.2.2.2.2.2 overlongBuf64 (by decide)⟩

/-- C7: the literal vectors hold: `encode_u32 0xABCDE` writes
`[0xDE, 0xE6, 0x55]` and returns 3; `encode_u64 0x1_FFFFFFFF` writes
`[0xF4, 0xFF, 0xFF, 0xFF, 0xFF, 0x01]` and returns 6; `encode_i32 123`
writes `[0xB6, 0x03]` and `decode_i32` of that buffer returns `(123, 2)`. -/
theorem C7_literal_vectors :
    ((encode_u32 zbuf 0xABCDE).1 0 = 0xDE ∧ (encode_u32 zbuf 0xABCDE).1 1 = 0xE6 ∧
      (encode_u32 zbuf 0xABCDE).1 2 = 0x55 ∧ (encode_u32 zbuf 0xABCDE).2 = 3) ∧
    ((encode_u64 zbuf 0x1FFFFFFFF).1 0 = 0xF4 ∧ (encode_u64 zbuf 0x1FFFFFFFF).1 1 = 0xFF ∧
      (encode_u64 zbuf 0x1FFFFFFFF).1 2 = 0xFF ∧ (encode_u64 zbuf 0x1FFFFFFFF).1 3 = 0xFF ∧
      (encode_u64 zbuf 0x1FFFFFFFF).1 4 = 0xFF ∧ (encode_u64 zbuf 0x1FFFFFFFF).1 5 = 0x01 ∧
      (encode_u64 zbuf 0x1FFFFFFFF).2 = 6) ∧
    ((encode_i32 zbuf 123).1 0 = 0xB6 ∧ (encode_i32 zbuf 123).1 1 = 0x03 ∧
      (encode_i32 zbuf 123).2 = 2 ∧ decode_i32 (encode_i32 zbuf 123).1 = (123, 2)) := by
  refine ⟨⟨?_, ?_, ?_, ?_⟩, ⟨?_, ?_, ?_, ?_, ?_, ?_, ?_⟩, ⟨?_, ?_, ?_, ?_⟩⟩ <;> decide

/-- C8: for each unsigned width the encoded length equals a non-decreasing
step function of the value, with breakpoints at `2^7`, `2^14`, `2^21`,
`2^28` and at every whole-byte boundary `2^(8k)` thereafter; for signed
types the length is the same step function of the zigzag-mapped value. -/
theorem C8_monotonic_length :
    (∀ buf v, (encode_u32 buf v).2 = specStepLen32 v) ∧
    (∀ v w, v ≤ w → specStepLen32 v ≤ specStepLen32 w) ∧
    (∀ buf v, v < 2 ^ 64 → (encode_u64 buf v).2 = specStepLen64 v) ∧
    (∀ v w, v ≤ w → specStepLen64 v ≤ specStepLen64 w) ∧
    (∀ buf v, v < 2 ^ 128 → (encode_u128 buf v).2 = specStepLen128 v) ∧
    (∀ v w, v ≤ w → specStepLen128 v ≤ specStepLen128 w) ∧
    (∀ buf (v : Int), (encode_i32 buf v).2 = specStepLen32 (zigzag 32 v)) ∧
    (∀ buf (v : Int), -(2 ^ 63) ≤ v → v < 2 ^ 63 →
      (encode_i64 buf v).2 = specStepLen64 (zigzag 64 v)) ∧
    (∀ buf (v : Int), -(2 ^ 127) ≤ v → v < 2 ^ 127 →
      (encode_i128 buf v).2 = specStepLen128 (zigzag 128 v)) := by
  refine ⟨encode_u32_len, specStepLen32_mono, encode_u64_len, specStepLen64_mono,
    encode_u128_len, specStepLen128_mono, ?_, ?_, ?_⟩
  · intro buf v
    exact encode_u32_len buf (zigzag 32 v)
  · intro buf v hlo hhi
    have hlo' : -((2 : Int) ^ (64 - 1)) ≤ v := by
      norm_num at hlo ⊢
      exact hlo
    have hhi' : v < (2 : Int) ^ (64 - 1) := by
      norm_num at hhi ⊢
      exact hhi
    exact encode_u64_len buf (zigzag 64 v) (zigzag_lt 64 v (by norm_num) hlo' hhi')
  · intro buf v hlo hhi
    have hlo' : -((2 : Int) ^ (128 - 1)) ≤ v := by
      norm_num at hlo ⊢
      exact hlo
    have hhi' : v < (2 : Int) ^ (128 - 1) := by
      norm_num at hhi ⊢
      exact hhi
    exact encode_u128_len buf (zigzag 128 v) (zigzag_lt 128 v (by norm_num) hlo' hhi')

/-- Witness for C8 at concrete values and lengths. -/
theorem C8_monotonic_length_witness :
    (encode_u32 zbuf 0xABCDE).2 = specStepLen32 0xABCDE ∧
    specStepLen64 0x80 ≤ specStepLen64 0x4000 ∧
    (encode_u64 zbuf 0x1FFFFFFFF).2 = specStepLen64 0x1FFFFFFFF ∧
    (encode_i64 zbuf (-70000)).2 = specStepLen64 (zigzag 64 (-70000)) :=
  ⟨C8_monotonic_length.1 zbuf 0xABCDE,
   C8_monotonic_length.2.2.2.1 0x80 0x4000 (by norm_num),
   C8_monotonic_length.2.2.1 zbuf 0x1FFFFFFFF (by norm_num),
   C8_monotonic_length.2.2.2.2.2.2.2.1 zbuf (-70000) (by norm_num) (by norm_num)⟩

/-- C9: for every value below `2^28`, `encode_u128` produces exactly the
same buffer contents and the same returned length as `encode_u32` (the
source delegates to the u32 encoder on a reinterpreted 5-byte sub-buffer),
and that length fits in the 5-byte sub-buffer. -/
theorem C9_u128_delegation (buf : Buf) (v : Nat) (h : v < 2 ^ 28) :
    encode_u128 buf v = encode_u32 buf v ∧ (encode_u32 buf v).2 ≤ 5 := by
  refine ⟨encode_u128_eq_encode_u32 buf v (by omega), ?_⟩
  rw [encode_u32_len]
  exact (specStepLen32_bounds v).2

/-- Witness for C9 at a concrete value. -/
theorem C9_u128_delegation_witness :
    encode_u128 zbuf 0xABCDE = encode_u32 zbuf 0xABCDE ∧ (encode_u32 zbuf 0xABCDE).2 ≤ 5 :=
  C9_u128_delegation zbuf 0xABCDE (by norm_num)

/-- C10: for every 5-byte buffer whose first byte is at least `0xF4`,
`decode_u32` consumes `(b &&& 0x0F) + 2` bytes — strictly more than the
5-byte buffer (and up to 17) — while the returned value is assembled from
buffer bytes 1 through 4 only. -/
theorem C10_u32_overlong_skip (buf : Buf) (h : ∀ i, i < 5 → buf i < 256)
    (hb : 0xF4 ≤ buf 0) :
    decode_u32 buf = (buf 1 + 256 * buf 2 + 65536 * buf 3 + 16777216 * buf 4,
      (buf 0 &&& 0x0F) + 2) ∧
    5 < (buf 0 &&& 0x0F) + 2 ∧ (buf 0 &&& 0x0F) + 2 ≤ 17 := by
  have h0 := h 0 (by omega)
  have h1 := h 1 (by omega)
  have h2 := h 2 (by omega)
  have h3 := h 3 (by omega)
  have h4 := h 4 (by omega)
  have hnib : buf 0 &&& 0x0F = buf 0 % 16 := and_15 (buf 0)
  refine ⟨?_, by omega, by omega⟩
  rw [decode_u32_caseF buf (by omega) h0]
  simp only [Nat.shiftLeft_eq]
  rw [or_eq_add_of 24 (buf 4 * 2 ^ 24) (buf 3 * 2 ^ 16) (by omega) (by omega),
    or_eq_add_of 16 (buf 4 * 2 ^ 24 + buf 3 * 2 ^ 16) (buf 2 * 2 ^ 8) (by omega) (by omega),
    or_eq_add_of 8 _ _ (by omega) (by omega)]
  simp only [Prod.mk.injEq]
  exact ⟨by omega, by norm_num⟩

/-- Witness for C10 at the concrete buffer `[0xF7, 1, 2, 3, 4]`. -/
theorem C10_u32_overlong_skip_witness :
    decode_u32 skipBuf = (skipBuf 1 + 256 * skipBuf 2 + 65536 * skipBuf 3 +
      16777216 * skipBuf 4, (skipBuf 0 &&& 0x0F) + 2) ∧
    5 < (skipBuf 0 &&& 0x0F) + 2 ∧ (skipBuf 0 &&& 0x0F) + 2 ≤ 17 :=
  C10_u32_overlong_skip skipBuf (by decide) (by decide)

end Vu128
